import Mathlib

/-!
Verification development for the multi-tenant data-access materialization
layer (DistributedModelRegistry, CacheManager, TenantConnectionManager).
Each JavaScript operation relevant to the checked properties is shallowly
embedded as an executable Lean definition; stateful code is embedded as
explicit state passing, asynchronous interleaving as a small-step relation,
and fallible code as `Except`-valued functions.
-/

namespace ChemTech

/-! ## JavaScript values and truthiness

`CacheManager` stores arbitrary JSON-serializable values and branches on
JavaScript truthiness (`if (l1Value)`, `if (l2Value)`).  `JVal` is the
fragment of JavaScript values the cache layer handles: `null`, booleans,
numbers, strings and plain objects. -/

inductive JVal where
  | vNull
  | vBool (b : Bool)
  | vNum (n : Int)
  | vStr (s : String)
  | vObj (fields : List (String × JVal))

/-- JavaScript truthiness of a value: `null`, `false`, `0` and `""` are
falsy; every object is truthy. -/
def JVal.truthy : JVal → Bool
  | .vNull => false
  | .vBool b => b
  | .vNum n => decide (n ≠ 0)
  | .vStr s => decide (s ≠ "")
  | .vObj _ => true

/-- Truthiness of a possibly-absent value (`undefined` is falsy, so an
absent map entry takes the same branch as a stored falsy value). -/
def optTruthy : Option JVal → Bool
  | none => false
  | some v => v.truthy

mutual

/-- `JSON.stringify` on the modelled value fragment.  Its only role in the
cache layer is the `if (l2Value)` truthiness test on the string read back
from tier 2 (a string is truthy iff non-empty). -/
def JVal.serialize : JVal → String
  | .vNull => "null"
  | .vBool b => cond b "true" "false"
  | .vNum n => toString n
  | .vStr s => "\"" ++ s ++ "\""
  | .vObj fs => "\x7b" ++ JVal.serializeFields fs ++ "\x7d"

/-- Serialization of the field list of a JSON object. -/
def JVal.serializeFields : List (String × JVal) → String
  | [] => ""
  | (k, v) :: rest =>
    "\"" ++ k ++ "\":" ++ JVal.serialize v ++
      (match rest with
       | [] => ""
       | _ => "," ++ JVal.serializeFields rest)

end

/-! ## Association-list maps

`Map`s and the LRU cache keyed by strings are embedded as association
lists (insertion order is the iteration order of a JavaScript `Map`).
TTL expiry and LRU size-bounded eviction are not exercised by any of the
checked properties and are not modelled. -/

/-- Lookup in an association list (leftmost binding wins; `aset` keeps at
most one binding per key). -/
def alookup {α : Type} : List (String × α) → String → Option α
  | [], _ => none
  | (k', v) :: rest, k => if k' = k then some v else alookup rest k

/-- `Map.prototype.set` / `LRUCache.set`: overwrite in place if the key is
present, append otherwise. -/
def aset {α : Type} : List (String × α) → String → α → List (String × α)
  | [], k, v => [(k, v)]
  | (k', v') :: rest, k, v =>
    if k' = k then (k, v) :: rest else (k', v') :: aset rest k v

/-- `Map.prototype.delete`: remove the binding for a key. -/
def aremove {α : Type} : List (String × α) → String → List (String × α)
  | [], _ => []
  | (k', v') :: rest, k =>
    if k' = k then aremove rest k else (k', v') :: aremove rest k

/-! ## CacheManager (src/services/CacheManager.js)

State of one `CacheManager` instance.  `l1Cache` is the in-process LRU
cache, `redisStore` is the content of the external tier-2 (Redis) store
(tier 2 holds `JSON.stringify(value)`; since `JSON.parse` inverts it on the
modelled fragment, the store is modelled as holding the value itself and
the `if (l2Value)` test becomes a truthiness test on its serialization),
and `isRedisConnected` is the connectivity flag maintained by the Redis
event handlers. -/
structure CMState where
  l1Cache : List (String × JVal)
  redisStore : List (String × JVal)
  isRedisConnected : Bool

/-- Behaviour of the tier-2 server for the duration of one call: `healthy`
operations succeed against `redisStore`; `failing` operations throw (the
rejected promise carries `msg`). -/
inductive L2Mode where
  | healthy
  | failing (msg : String)

/-- `redisConfig.keyPrefix.models` (src/config: `'models:'`). -/
def keyPrefixModels : String := "models:"

/-- `CacheManager.generateKey`. -/
def generateKey (tenantId : String) : String := keyPrefixModels ++ tenantId

/-- One tier-2 `GET`: either the stored string (here: the stored value) or
a thrown error, depending on the server mode. -/
def l2GetRaw (mode : L2Mode) (st : CMState) (key : String) :
    Except String (Option JVal) :=
  match mode with
  | .failing msg => .error msg
  | .healthy => .ok (alookup st.redisStore key)

/-- One tier-2 `SETEX`: writes the serialized value or throws. -/
def l2SetRaw (mode : L2Mode) (st : CMState) (key : String) (v : JVal) :
    Except String CMState :=
  match mode with
  | .failing msg => .error msg
  | .healthy => .ok { st with redisStore := aset st.redisStore key v }

/-- `CacheManager.get`: tier-1 lookup guarded by truthiness; on tier-1
miss and Redis connected, a tier-2 read inside `try { ... } catch`: a
thrown tier-2 error falls through to the final `return null`; a tier-2 hit
populates tier 1 (write-through on read). -/
def CacheManager.get (mode : L2Mode) (st : CMState) (tenantId : String) :
    Option JVal × CMState :=
  let key := generateKey tenantId
  let l1Value := alookup st.l1Cache key
  if optTruthy l1Value then (l1Value, st)
  else if st.isRedisConnected then
    match l2GetRaw mode st key with
    | .error _ => (none, st)
    | .ok none => (none, st)
    | .ok (some v) =>
      if v.serialize ≠ "" then
        (some v, { st with l1Cache := aset st.l1Cache key v })
      else (none, st)
  else (none, st)

/-- `CacheManager.set`: always writes tier 1 first; if Redis is connected,
a tier-2 write inside `try { ... } catch` whose error is logged and
swallowed — tier 1 remains set either way. -/
def CacheManager.set (mode : L2Mode) (st : CMState) (tenantId : String) (value : JVal) :
    CMState :=
  let key := generateKey tenantId
  let st1 := { st with l1Cache := aset st.l1Cache key value }
  if st1.isRedisConnected then
    match l2SetRaw mode st1 key value with
    | .ok st2 => st2
    | .error _ => st1
  else st1

/-- `CacheManager.isL2Available`. -/
def CacheManager.isL2Available (st : CMState) : Bool := st.isRedisConnected

/-! ## DistributedModelRegistry.healthCheck (part_007, lines 314-347) -/

inductive HealthStatus where
  | healthy
  | degraded
  | unhealthy
deriving DecidableEq, Repr

structure HealthChecks where
  cacheL1 : Bool
  cacheL2 : Bool
  connections : Bool
deriving DecidableEq, Repr

structure Health where
  status : HealthStatus
  checks : HealthChecks
  error : Option String
deriving DecidableEq, Repr

/-- `DistributedModelRegistry.healthCheck`.  `isL2Avail` is the value of
`cacheManager.isL2Available()` (a synchronous flag read that cannot
throw); `connStats` is the outcome of `connectionManager.getStats()`
(its `totalConnections`, or the error it threw).  A throw lands in the
`catch` block, which sets the status to `unhealthy`. -/
def healthCheck (isL2Avail : Bool) (connStats : Except String Nat) : Health :=
  let checks1 : HealthChecks := { cacheL1 := true, cacheL2 := isL2Avail, connections := true }
  match connStats with
  | .error e => { status := .unhealthy, checks := checks1, error := some e }
  | .ok total =>
    let checks2 := { checks1 with connections := decide (total ≥ 0) }
    let status :=
      if !checks2.cacheL1 || !checks2.connections then HealthStatus.unhealthy
      else if !checks2.cacheL2 then HealthStatus.degraded
      else HealthStatus.healthy
    { status := status, checks := checks2, error := none }

/-! ## TenantConnectionManager (src/services/TenantConnectionManager.js) -/

/-- A lifecycle signal emitted by a mongoose connection. -/
inductive ConnSignal where
  | connected
  | errored (msg : String)
  | disconnected
deriving DecidableEq

/-- Event name under which a signal is emitted. -/
def signalEventName : ConnSignal → String
  | .connected => "connected"
  | .errored _ => "error"
  | .disconnected => "disconnected"

/-- The event names on which the `Connecting`-state branch of
`getConnection` registers a resolver: the source registers only
`connection.once("connected", resolve)` (lines 28-34). -/
def connectingWaitEvents : List String := ["connected"]

/-- Outcome of the `Connecting`-state wait when the tracked connection
emits `sig`: `some r` means the awaited promise settles with `r` (the
caller resumes); `none` means no registered listener fires and the caller
stays suspended. -/
def connectingWaitOutcome (sig : ConnSignal) : Option (Except String Unit) :=
  if signalEventName sig ∈ connectingWaitEvents then some (.ok ()) else none

/-- How one attempt to open a tenant connection resolves. -/
inductive OpenOutcome where
  | connectedOk
  | openError (msg : String)
  | timedOut
deriving DecidableEq

/-- The inner `new Promise` of `createConnection`: resolves on the
`connected` event, rejects with the transport error on the `error`
event, and rejects with the timeout error after 10 seconds. -/
def openAttempt (tenantId : String) (o : OpenOutcome) : Except String Unit :=
  match o with
  | .connectedOk => .ok ()
  | .openError e => .error e
  | .timedOut => .error ("Connection timeout for tenant " ++ tenantId)

/-- `TenantConnectionManager.createConnection` as seen by its caller: the
surrounding `try { ... } catch (error)` rethrows every rejection of the
open attempt as one generic connection-failure error (lines 93-96). -/
def createConnection (tenantId : String) (o : OpenOutcome) : Except String Unit :=
  match openAttempt tenantId o with
  | .ok () => .ok ()
  | .error _ =>
    .error ("Failed to establish database connection for tenant " ++ tenantId)

/-! ## DistributedModelRegistry (part_007) — sequential model

The registry orchestrates the tiered cache, the connection manager and the
schema catalogue.  This section embeds its operations for single-threaded
(sequential) executions; the concurrent single-flight behaviour of
`getModels` is modelled separately by a small-step relation below.

Modelling choices, all reviewer-checkable against part_007:
* the schema catalogue is a `Map` whose values (mongoose schemas) are
  opaque to this layer, so it is modelled by its ordered key list;
* a model handle is identified by its model name bound on the tenant's
  connection, so a returned model mapping is modelled by its ordered key
  list and the per-tenant connection by the list of model names bound on
  it (`connection.models`);
* the `cacheData` envelope written by `cacheModels` keeps its `models`
  keys and the `cacheLevel` field read back by `getCachedModels`
  (`CacheManager` never writes that field, hence it is `none` —
  `undefined` — in every stored entry); the `tenantId` and `timestamp`
  fields are never read and are omitted;
* tier-2 cache behaviour here is healthy-or-disconnected; the tier-2
  throw-and-swallow paths are covered by the `CacheManager` model above;
* connection opening and `createIndexes` are the two fallible storage
  operations of cold materialization; their outcomes are supplied as
  oracles `connRes` / `bindRes`. -/

/-- The envelope stored in the cache for one tenant. -/
structure CachedEntry where
  models : List String
  cacheLevel : Option String
deriving DecidableEq, Repr

/-- State of the registry singleton together with its cache manager and
connection manager. -/
structure RegistryState where
  registeredSchemas : List String
  l1 : List (String × CachedEntry)
  l2 : List (String × CachedEntry)
  l2Connected : Bool
  connModels : List (String × List String)
  hitsL1 : Nat
  hitsL2 : Nat
  misses : Nat
  modelCreations : Nat
  errors : Nat
deriving DecidableEq, Repr

/-- `CacheManager.get` specialized to the registry's `cacheData` values:
these are always objects, hence truthy, so the truthiness guards reduce to
presence tests.  On a tier-1 miss with Redis connected, a tier-2 hit
populates tier 1. -/
def regCacheGet (st : RegistryState) (tenantId : String) :
    Option CachedEntry × RegistryState :=
  let key := generateKey tenantId
  match alookup st.l1 key with
  | some v => (some v, st)
  | none =>
    if st.l2Connected then
      match alookup st.l2 key with
      | some v => (some v, { st with l1 := aset st.l1 key v })
      | none => (none, st)
    else (none, st)

/-- `CacheManager.set` for the registry: tier 1 always, tier 2 when
connected. -/
def regCacheSet (st : RegistryState) (tenantId : String) (v : CachedEntry) :
    RegistryState :=
  let key := generateKey tenantId
  let st1 := { st with l1 := aset st.l1 key v }
  if st1.l2Connected then { st1 with l2 := aset st1.l2 key v } else st1

/-- `CacheManager.delete` (used by `invalidateCache`). -/
def regCacheDelete (st : RegistryState) (tenantId : String) : RegistryState :=
  let key := generateKey tenantId
  let st1 := { st with l1 := aremove st.l1 key }
  if st1.l2Connected then { st1 with l2 := aremove st1.l2 key } else st1

/-- `CacheManager.clear` (used by `invalidateAllCache`): empties tier 1;
when connected, deletes every tier-2 key under the `models:` prefix —
i.e. every key this cache writes. -/
def regCacheClear (st : RegistryState) : RegistryState :=
  let st1 := { st with l1 := [] }
  if st1.l2Connected then { st1 with l2 := [] } else st1

/-- `TenantConnectionManager.getConnection` in the sequential model:
reuse the tracked connection, or create one (outcome given by the
`connRes` oracle; on success the new connection starts with no bound
models). -/
def getOrCreateConn (connRes : String → Except String Unit)
    (st : RegistryState) (tenantId : String) :
    Except String (List String × RegistryState) :=
  match alookup st.connModels tenantId with
  | some ms => .ok (ms, st)
  | none =>
    match connRes tenantId with
    | .ok _ => .ok ([], { st with connModels := aset st.connModels tenantId [] })
    | .error e => .error e

/-- The reconstruction loop of `getCachedModels`: for each cached model
name whose schema is registered, reuse the model already bound on the
connection or bind it now (`connection.model`, no index creation). -/
def addModels : List String → List String → List String
  | ms, [] => ms
  | ms, m :: rest => addModels (if m ∈ ms then ms else ms ++ [m]) rest

/-- `DistributedModelRegistry.getCachedModels`: cache read, then handle
reconstruction; entries whose schema is no longer registered are skipped;
the tier-hit counter is chosen by `cachedData.cacheLevel === "L1"`; a
reconstruction error is caught and turned into `null` (without counting a
miss). -/
def getCachedModels (connRes : String → Except String Unit)
    (st : RegistryState) (tenantId : String) :
    Option (List String) × RegistryState :=
  match regCacheGet st tenantId with
  | (none, st1) => (none, { st1 with misses := st1.misses + 1 })
  | (some cd, st1) =>
    match getOrCreateConn connRes st1 tenantId with
    | .error _ => (none, st1)
    | .ok (ms, st2) =>
      let recon := cd.models.filter (fun m => decide (m ∈ st2.registeredSchemas))
      let st3 := { st2 with connModels := aset st2.connModels tenantId (addModels ms recon) }
      let st4 :=
        if cd.cacheLevel = some "L1" then { st3 with hitsL1 := st3.hitsL1 + 1 }
        else { st3 with hitsL2 := st3.hitsL2 + 1 }
      (some recon, st4)

/-- The binding loop of `createTenantModels` over the registered schema
names: reuse a model already bound on the connection, otherwise bind it
(`connection.model`, which mutates the connection) and then await
`createIndexes`, whose failure aborts the loop after the mutation. -/
def bindSchemas (bindRes : String → Except String Unit) :
    List String → List String → Except String Unit × List String
  | ms, [] => (.ok (), ms)
  | ms, name :: rest =>
    if name ∈ ms then bindSchemas bindRes ms rest
    else
      match bindRes name with
      | .error e => (.error e, ms ++ [name])
      | .ok _ => bindSchemas bindRes (ms ++ [name]) rest

/-- `DistributedModelRegistry.createTenantModels`: obtain the tenant
connection and bind every registered schema to it; the returned mapping
has exactly the registered names as keys. -/
def createTenantModels (connRes bindRes : String → Except String Unit)
    (st : RegistryState) (tenantId : String) :
    Except String (List String) × RegistryState :=
  match getOrCreateConn connRes st tenantId with
  | .error e => (.error e, st)
  | .ok (ms0, st1) =>
    match bindSchemas bindRes ms0 st1.registeredSchemas with
    | (.error e, ms1) =>
      (.error e, { st1 with connModels := aset st1.connModels tenantId ms1 })
    | (.ok _, ms1) =>
      (.ok st1.registeredSchemas,
        { st1 with connModels := aset st1.connModels tenantId ms1 })

/-- `DistributedModelRegistry.cacheModels`: store the model-metadata
envelope (no `cacheLevel` field is ever written). -/
def cacheModels (st : RegistryState) (tenantId : String) (models : List String) :
    RegistryState :=
  regCacheSet st tenantId { models := models, cacheLevel := none }

/-- `DistributedModelRegistry.getModels` for a sequential execution (the
per-tenant mutex is uncontended): cache check, double-check, cold
materialization, cache write, `modelCreations` bump; any error thrown on
the cold path is counted in `errors` and rethrown by the surrounding
catch. -/
def getModels (connRes bindRes : String → Except String Unit)
    (st : RegistryState) (tenantId : String) :
    Except String (List String) × RegistryState :=
  if tenantId = "" then (.error "Tenant ID is required", st)
  else
    match getCachedModels connRes st tenantId with
    | (some m, st1) => (.ok m, st1)
    | (none, st1) =>
      match getCachedModels connRes st1 tenantId with
      | (some m, st2) => (.ok m, st2)
      | (none, st2) =>
        match createTenantModels connRes bindRes st2 tenantId with
        | (.error e, st3) => (.error e, { st3 with errors := st3.errors + 1 })
        | (.ok models, st3) =>
          let st4 := cacheModels st3 tenantId models
          (.ok models, { st4 with modelCreations := st4.modelCreations + 1 })

/-- `DistributedModelRegistry.registerSchema` (schema values are opaque:
`Map.set` adds the name or overwrites in place). -/
def registerSchema (st : RegistryState) (modelName : String) :
    Except String RegistryState :=
  if modelName = "" then .error "Model name and schema are required"
  else .ok { st with registeredSchemas :=
    if modelName ∈ st.registeredSchemas then st.registeredSchemas
    else st.registeredSchemas ++ [modelName] }

/-- `DistributedModelRegistry.getModel`: auto-register an unknown name
against the fallback `MasterDataSchema`, delegate to `getModels`, then
fail if the requested name is absent from the returned mapping. -/
def getModel (connRes bindRes : String → Except String Unit)
    (st : RegistryState) (tenantId modelName : String) :
    Except String String × RegistryState :=
  let reg : Except String RegistryState :=
    if modelName ∈ st.registeredSchemas then .ok st else registerSchema st modelName
  match reg with
  | .error e => (.error e, st)
  | .ok st0 =>
    match getModels connRes bindRes st0 tenantId with
    | (.error e, st1) => (.error e, st1)
    | (.ok models, st1) =>
      if modelName ∈ models then (.ok modelName, st1)
      else (.error ("Model " ++ modelName ++ " not found for tenant " ++ tenantId), st1)

/-- `DistributedModelRegistry.invalidateCache`. -/
def invalidateCache (st : RegistryState) (tenantId : String) : RegistryState :=
  regCacheDelete st tenantId

/-- `DistributedModelRegistry.unregisterSchema`: on successful removal
from the catalogue, invalidate the whole cache. -/
def unregisterSchema (st : RegistryState) (modelName : String) : RegistryState :=
  if modelName ∈ st.registeredSchemas then
    regCacheClear
      { st with registeredSchemas :=
          st.registeredSchemas.filter (fun m => decide (m ≠ modelName)) }
  else st

/-- Oracle of an always-reachable storage engine. -/
def okConn : String → Except String Unit := fun _ => .ok ()

/-- Oracle of always-succeeding index creation. -/
def okBind : String → Except String Unit := fun _ => .ok ()

/-- A fresh registry holding the `{User, Project}` catalogue (the C3
scenario's starting point, tier 2 not connected). -/
def c3Init : RegistryState :=
  { registeredSchemas := ["User", "Project"], l1 := [], l2 := [],
    l2Connected := false, connModels := [], hitsL1 := 0, hitsL2 := 0,
    misses := 0, modelCreations := 0, errors := 0 }

/-- A registry whose tenant `acme` was materialized and cached while the
catalogue held `{User, Project}` (the state reached by running `getModels`
once from `c3Init`). -/
def c2CachedState : RegistryState :=
  { registeredSchemas := ["User", "Project"],
    l1 := [("models:acme", { models := ["User", "Project"], cacheLevel := none })],
    l2 := [], l2Connected := false,
    connModels := [("acme", ["User", "Project"])],
    hitsL1 := 0, hitsL2 := 0, misses := 2, modelCreations := 1, errors := 0 }

/-! ## Concurrent getModels — single-flight model (C1)

Small-step interleaving semantics for N callers that concurrently invoke
`getModels(T)` for one fixed, initially uncached tenant T, on the success
path (connection open and index creation succeed — the scenario of the
claim).  JavaScript runs each caller's code atomically between `await`
suspension points; the scheduler picks which suspended caller resumes (or
which pending I/O completes) at every step.  `schemas` is the fixed
content of the schema catalogue (no registration runs concurrently) and
`c` says whether tier 2 (Redis) is connected for the run.

The modelled suspension points of one `getModels` call (part_007) are:
the tier-2 read inside the first `cacheManager.get`, the mutex
acquisition, the tier-2 read of the double-check, the `getConnection`
await of cache-hit reconstruction, the connection open, each
`createIndexes`, and the tier-2 write inside `cacheManager.set`.
Purely local awaits with no shared-state access in between are merged
into their neighbouring atomic segment; the reuse branch of the binding
loop (which has no await) is given its own step, which only adds
interleavings.  A tier-2 read returns the store content as of some
instant inside its await window, so the read-resume step may observe
either the current content or a miss (a read linearized before a
concurrent write landed).  Stats counters other than `modelCreations`
(tracked as `creations`) do not influence control flow and are omitted;
connection opens are counted by `opens`. -/

/-- The tenant's slot in the connection manager: absent, opening
(mongoose `Connecting`), or connected carrying the list of model names
bound on the connection (`connection.models`). -/
inductive ConnSt where
  | absent
  | connecting
  | connected (ms : List String)
deriving DecidableEq, Repr

/-- Program counter of one `getModels(T)` caller, naming the suspension
point (or atomic segment) the caller is at. -/
inductive Pc where
  | start
  | l2Read1
  | waitMutex
  | inMutex
  | l2Read2
  | reconNoLock (d : List String)
  | reconLock (d : List String)
  | getConnCold
  | openWait
  | bind (i : Nat)
  | indexWait (i : Nat)
  | l2SetPending
  | finishCold
  | done (res : List String)
deriving DecidableEq, Repr

/-- Whether a caller at this point holds the tenant's mutex (acquired
when `runExclusive` starts its body at `inMutex`, released when the body
returns at `reconLock` or `finishCold`). -/
def Pc.holdsLock : Pc → Bool
  | .inMutex | .l2Read2 | .reconLock _ | .getConnCold | .openWait
  | .bind _ | .indexWait _ | .l2SetPending | .finishCold => true
  | _ => false

/-- Whether a caller is past the tier-1 cache write of the cold path but
has not yet bumped `modelCreations`. -/
def Pc.isPend : Pc → Bool
  | .l2SetPending | .finishCold => true
  | _ => false

def Pc.isDone : Pc → Bool
  | .done _ => true
  | _ => false

/-- Global configuration: both cache tiers' entry for the tenant, the
tenant's connection slot, the open and cold-materialization counters, and
every caller's program counter. -/
structure Cfg where
  l1 : Option (List String)
  l2 : Option (List String)
  conn : ConnSt
  opens : Nat
  creations : Nat
  tasks : List Pc
deriving DecidableEq, Repr

/-- Result of the reconstruction loop of `getCachedModels` on cache hit
`d`: handles for the cached names whose schema is still registered. -/
def reconResult (schemas d : List String) : List String :=
  d.filter (fun m => decide (m ∈ schemas))

/-- The connection's bound-model set after the reconstruction loop bound
the missing names (`connection.model` for each name not yet present). -/
def reconConn (schemas d ms : List String) : List String :=
  addModels ms (reconResult schemas d)

/-- One step of the concurrent system: a runnable caller executes its
next atomic segment, or a pending I/O completes. -/
inductive Step (schemas : List String) (c : Bool) : Cfg → Cfg → Prop where
  /-- First cache check, tier-1 hit: proceed to reconstruction (suspend at
  its `getConnection`) without touching the mutex. -/
  | startHit (s : Cfg) (k : Nat) (d : List String)
      (hk : s.tasks[k]? = some .start) (hl1 : s.l1 = some d) :
      Step schemas c s { s with tasks := s.tasks.set k (.reconNoLock d) }
  /-- First cache check, tier-1 miss with Redis connected: issue the
  tier-2 read and suspend. -/
  | startL2 (s : Cfg) (k : Nat)
      (hk : s.tasks[k]? = some .start) (hl1 : s.l1 = none) (hc : c = true) :
      Step schemas c s { s with tasks := s.tasks.set k .l2Read1 }
  /-- First cache check, tier-1 miss with Redis down: a miss; queue on the
  tenant's mutex. -/
  | startMiss (s : Cfg) (k : Nat)
      (hk : s.tasks[k]? = some .start) (hl1 : s.l1 = none) (hc : c = false) :
      Step schemas c s { s with tasks := s.tasks.set k .waitMutex }
  /-- The first tier-2 read resumes having observed a hit: populate
  tier 1 (write-through on read) and reconstruct. -/
  | l2Read1Hit (s : Cfg) (k : Nat) (d : List String)
      (hk : s.tasks[k]? = some .l2Read1) (hl2 : s.l2 = some d) :
      Step schemas c s
        { s with l1 := some d, tasks := s.tasks.set k (.reconNoLock d) }
  /-- The first tier-2 read resumes having observed a miss (the store may
  have been read before a concurrent write landed): queue on the mutex. -/
  | l2Read1Miss (s : Cfg) (k : Nat) (hk : s.tasks[k]? = some .l2Read1) :
      Step schemas c s { s with tasks := s.tasks.set k .waitMutex }
  /-- Mutex grant: a queued caller enters `runExclusive` when nobody holds
  the tenant's lock. -/
  | acquire (s : Cfg) (k : Nat) (hk : s.tasks[k]? = some .waitMutex)
      (hfree : ∀ pc ∈ s.tasks, pc.holdsLock = false) :
      Step schemas c s { s with tasks := s.tasks.set k .inMutex }
  /-- Double-check inside the mutex, tier-1 hit: reconstruct, keeping the
  lock until the body returns. -/
  | inMutexHit (s : Cfg) (k : Nat) (d : List String)
      (hk : s.tasks[k]? = some .inMutex) (hl1 : s.l1 = some d) :
      Step schemas c s { s with tasks := s.tasks.set k (.reconLock d) }
  /-- Double-check, tier-1 miss with Redis connected: issue the tier-2
  read. -/
  | inMutexL2 (s : Cfg) (k : Nat)
      (hk : s.tasks[k]? = some .inMutex) (hl1 : s.l1 = none) (hc : c = true) :
      Step schemas c s { s with tasks := s.tasks.set k .l2Read2 }
  /-- Double-check, miss with Redis down: still uncached — start cold
  materialization at `getConnection`. -/
  | inMutexMiss (s : Cfg) (k : Nat)
      (hk : s.tasks[k]? = some .inMutex) (hl1 : s.l1 = none) (hc : c = false) :
      Step schemas c s { s with tasks := s.tasks.set k .getConnCold }
  /-- The double-check's tier-2 read observed a hit: populate tier 1 and
  reconstruct under the lock. -/
  | l2Read2Hit (s : Cfg) (k : Nat) (d : List String)
      (hk : s.tasks[k]? = some .l2Read2) (hl2 : s.l2 = some d) :
      Step schemas c s
        { s with l1 := some d, tasks := s.tasks.set k (.reconLock d) }
  /-- The double-check's tier-2 read observed a miss: cold path. -/
  | l2Read2Miss (s : Cfg) (k : Nat) (hk : s.tasks[k]? = some .l2Read2) :
      Step schemas c s { s with tasks := s.tasks.set k .getConnCold }
  /-- `getConnection` on the cold path with no tracked connection:
  `createConnection` starts the open (state `Connecting`) and awaits the
  `connected` event.  (Under the mutex the cold path only runs while no
  connection exists, so the reuse branch of `getConnection` is
  unreachable here — established by the invariant below.) -/
  | coldOpen (s : Cfg) (k : Nat)
      (hk : s.tasks[k]? = some .getConnCold) (hconn : s.conn = .absent) :
      Step schemas c s
        { s with conn := .connecting, opens := s.opens + 1,
                 tasks := s.tasks.set k .openWait }
  /-- The storage engine completes the open: the connection emits
  `connected` with no models bound yet. -/
  | ioConnect (s : Cfg) (hconn : s.conn = .connecting) :
      Step schemas c s { s with conn := .connected [] }
  /-- The opener resumes after the `connected` event, stores the
  connection, and starts the binding loop. -/
  | openResume (s : Cfg) (k : Nat) (ms : List String)
      (hk : s.tasks[k]? = some .openWait) (hconn : s.conn = .connected ms) :
      Step schemas c s { s with tasks := s.tasks.set k (.bind 0) }
  /-- Binding loop, reuse branch: schema `i` is already bound on the
  connection; no await happens. -/
  | bindReuse (s : Cfg) (k i : Nat) (ms : List String) (name : String)
      (hk : s.tasks[k]? = some (.bind i)) (hconn : s.conn = .connected ms)
      (hi : schemas[i]? = some name) (hmem : name ∈ ms) :
      Step schemas c s { s with tasks := s.tasks.set k (.bind (i+1)) }
  /-- Binding loop, create branch: `connection.model` binds schema `i`
  synchronously, then the caller awaits `createIndexes`. -/
  | bindCreate (s : Cfg) (k i : Nat) (ms : List String) (name : String)
      (hk : s.tasks[k]? = some (.bind i)) (hconn : s.conn = .connected ms)
      (hi : schemas[i]? = some name) (hmem : name ∉ ms) :
      Step schemas c s
        { s with conn := .connected (ms ++ [name]),
                 tasks := s.tasks.set k (.indexWait i) }
  /-- `createIndexes` completes; continue with the next schema. -/
  | indexResume (s : Cfg) (k i : Nat) (hk : s.tasks[k]? = some (.indexWait i)) :
      Step schemas c s { s with tasks := s.tasks.set k (.bind (i+1)) }
  /-- Every registered schema is bound: `createTenantModels` returns and
  `cacheModels` runs `cacheManager.set`, whose tier-1 write is
  synchronous; with Redis connected the tier-2 write is then issued and
  awaited. -/
  | bindFinishL2 (s : Cfg) (k : Nat)
      (hk : s.tasks[k]? = some (.bind schemas.length)) (hc : c = true) :
      Step schemas c s
        { s with l1 := some schemas, tasks := s.tasks.set k .l2SetPending }
  /-- As above with Redis down: `cacheManager.set` skips tier 2. -/
  | bindFinishNoL2 (s : Cfg) (k : Nat)
      (hk : s.tasks[k]? = some (.bind schemas.length)) (hc : c = false) :
      Step schemas c s
        { s with l1 := some schemas, tasks := s.tasks.set k .finishCold }
  /-- The tier-2 write lands in the store and the writer resumes. -/
  | l2SetLand (s : Cfg) (k : Nat) (hk : s.tasks[k]? = some .l2SetPending) :
      Step schemas c s
        { s with l2 := some schemas, tasks := s.tasks.set k .finishCold }
  /-- Cold materialization completes: bump `modelCreations`, return the
  created mapping, and release the mutex as `runExclusive` returns. -/
  | coldRet (s : Cfg) (k : Nat) (hk : s.tasks[k]? = some .finishCold) :
      Step schemas c s
        { s with creations := s.creations + 1,
                 tasks := s.tasks.set k (.done schemas) }
  /-- Cache-hit reconstruction without the lock: `getConnection` resumed
  with the live connection; the loop rebinds missing names synchronously
  and the hit result is returned. -/
  | reconN (s : Cfg) (k : Nat) (d ms : List String)
      (hk : s.tasks[k]? = some (.reconNoLock d)) (hconn : s.conn = .connected ms) :
      Step schemas c s
        { s with conn := .connected (reconConn schemas d ms),
                 tasks := s.tasks.set k (.done (reconResult schemas d)) }
  /-- Cache-hit reconstruction under the lock; the mutex is released when
  `runExclusive` returns the reconstructed mapping. -/
  | reconL (s : Cfg) (k : Nat) (d ms : List String)
      (hk : s.tasks[k]? = some (.reconLock d)) (hconn : s.conn = .connected ms) :
      Step schemas c s
        { s with conn := .connected (reconConn schemas d ms),
                 tasks := s.tasks.set k (.done (reconResult schemas d)) }

/-- Initial configuration: uncached tenant, no tracked connection, `n`
callers each about to run `getModels(T)`. -/
def initCfg (n : Nat) : Cfg :=
  { l1 := none, l2 := none, conn := .absent, opens := 0, creations := 0,
    tasks := List.replicate n .start }

/-- Interleaved executions: reflexive-transitive closure of `Step`. -/
def Reach (schemas : List String) (c : Bool) : Cfg → Cfg → Prop :=
  Relation.ReflTransGen (Step schemas c)

/-- Invariant of one caller, relative to the shared state. -/
def TaskOK (schemas : List String) (c : Bool) (l1 l2 : Option (List String))
    (conn : ConnSt) : Pc → Prop
  | .start => True
  | .l2Read1 => c = true
  | .waitMutex => True
  | .inMutex => True
  | .l2Read2 => c = true ∧ l1 = none ∧ l2 = none
  | .reconNoLock d => d = schemas ∧ l1 = some schemas
  | .reconLock d => d = schemas ∧ l1 = some schemas
  | .getConnCold => conn = .absent ∧ l1 = none ∧ l2 = none
  | .openWait => l1 = none ∧ l2 = none ∧ (conn = .connecting ∨ conn = .connected [])
  | .bind i => i ≤ schemas.length ∧ conn = .connected (schemas.take i) ∧
      l1 = none ∧ l2 = none
  | .indexWait i => i < schemas.length ∧ conn = .connected (schemas.take (i+1)) ∧
      l1 = none ∧ l2 = none
  | .l2SetPending => c = true ∧ l1 = some schemas
  | .finishCold => l1 = some schemas
  | .done r => r = schemas ∧ l1 = some schemas

/-- Inductive invariant of the concurrent system. -/
structure Inv (schemas : List String) (c : Bool) (s : Cfg) : Prop where
  lockExcl : ∀ (i j : Nat) (pci pcj : Pc), i ≠ j → s.tasks[i]? = some pci →
    s.tasks[j]? = some pcj → pci.holdsLock = true → pcj.holdsLock = true → False
  l1Val : ∀ d, s.l1 = some d → d = schemas ∧ s.conn = .connected schemas
  l2Val : ∀ d, s.l2 = some d → d = schemas ∧ s.l1 = some schemas
  opensConn : s.opens = (match s.conn with | .absent => 0 | _ => 1)
  creatPend : s.creations + s.tasks.countP Pc.isPend
    = (if s.l1.isSome then 1 else 0)
  connOrigin : s.conn ≠ .absent → (s.l1 = some schemas ∨
    ∃ (j : Nat) (pc : Pc), s.tasks[j]? = some pc ∧
      (pc = .openWait ∨ (∃ i, pc = .bind i) ∨ (∃ i, pc = .indexWait i)))
  tasksOK : ∀ (k : Nat) (pc : Pc), s.tasks[k]? = some pc →
    TaskOK schemas c s.l1 s.l2 s.conn pc

/-! ## Claims about CacheManager, healthCheck and the connection layer -/

theorem alookup_aset_self {α : Type} (l : List (String × α)) (k : String) (v : α) :
    alookup (aset l k v) k = some v := by
  induction l with
  | nil => simp [aset, alookup]
  | cons hd tl ih =>
    obtain ⟨k', v'⟩ := hd
    by_cases h : k' = k
    · simp [aset, h, alookup]
    · simp [aset, h, alookup, ih]

/-- C4: for every key and value, `CacheManager.get` and `CacheManager.set`
never propagate a tier-2 (Redis) error to the caller: a tier-2 read
failure downgrades the read to a cache miss (`get` returns `null` when
tier 1 also misses, with the cache state untouched), and a tier-2 write
failure leaves `set` successful with the value stored in tier 1. -/
theorem c4_tier2_errors_never_propagate (st : CMState) (tenantId : String)
    (v : JVal) (msg : String)
    (hmiss : optTruthy (alookup st.l1Cache (generateKey tenantId)) = false) :
    CacheManager.get (.failing msg) st tenantId = (none, st) ∧
    alookup (CacheManager.set (.failing msg) st tenantId v).l1Cache
      (generateKey tenantId) = some v := by
  constructor
  · simp only [CacheManager.get, hmiss, Bool.false_eq_true, if_false, l2GetRaw]
    cases h : st.isRedisConnected <;> simp
  · simp only [CacheManager.set, l2SetRaw]
    cases h : st.isRedisConnected <;> simp [alookup_aset_self]

theorem c4_tier2_errors_never_propagate_witness :
    optTruthy (alookup (CMState.mk [] [] true).l1Cache (generateKey "acme")) = false ∧
    (CacheManager.get (.failing "ECONNRESET") (CMState.mk [] [] true) "acme"
        = (none, CMState.mk [] [] true) ∧
      alookup (CacheManager.set (.failing "ECONNRESET") (CMState.mk [] [] true) "acme"
          (.vStr "payload")).l1Cache (generateKey "acme") = some (.vStr "payload")) :=
  ⟨rfl, c4_tier2_errors_never_propagate (CMState.mk [] [] true) "acme"
    (.vStr "payload") "ECONNRESET" rfl⟩

/-- C9: `healthCheck` returns `degraded` when tier 2 is unreachable while
the connection-stats query succeeds, `healthy` when both are fine,
`unhealthy` when the stats query throws, and is never `unhealthy` merely
because tier 2 is down (i.e. whenever the stats query succeeds). -/
theorem c9_health_tristate (n : Nat) (e : String) (b : Bool) :
    (healthCheck false (.ok n)).status = .degraded ∧
    (healthCheck true (.ok n)).status = .healthy ∧
    (healthCheck b (.error e)).status = .unhealthy ∧
    (healthCheck b (.ok n)).status ≠ .unhealthy := by
  refine ⟨by simp [healthCheck], by simp [healthCheck], rfl, ?_⟩
  cases b <;> simp [healthCheck]

/-- C6: in the `Connecting` state, `getConnection` registers a resolver
only for the `connected` event, so a `connected` signal resumes the
caller, but an `error` signal fires no registered listener: the caller
stays suspended and the error is never propagated — contradicting the
claim that an error signal is observed and propagated. -/
theorem c6_connecting_wait_ignores_error :
    connectingWaitOutcome (.errored "ECONNREFUSED") = none ∧
    connectingWaitOutcome .connected = some (.ok ()) := by
  constructor <;> rfl

/-- C7 counterexample: a timeout and an arbitrary open error produce the
very same caller-visible error (`createConnection`'s catch block rewraps
both), so the two failure kinds are not distinguishable by the caller. -/
theorem c7_counterexample :
    createConnection "acme" .timedOut = createConnection "acme" (.openError "ECONNREFUSED") ∧
    createConnection "acme" .timedOut
      = .error "Failed to establish database connection for tenant acme" := by
  constructor <;> rfl

/-- C7 amended: when connection establishment times out or the open fails
for any other reason, `createConnection` surfaces an error to the
immediate caller, but the catch block rewraps both kinds into the single
generic `Failed to establish database connection` error, so the two
failure kinds are not distinguishable by the caller. -/
theorem c7_amended_uniform_failure (tenantId : String) (o : OpenOutcome)
    (h : o ≠ .connectedOk) :
    createConnection tenantId o
      = .error ("Failed to establish database connection for tenant " ++ tenantId) := by
  cases o with
  | connectedOk => exact absurd rfl h
  | openError e => rfl
  | timedOut => rfl

theorem c7_amended_uniform_failure_witness :
    (OpenOutcome.timedOut ≠ .connectedOk) ∧
    createConnection "acme" .timedOut
      = .error ("Failed to establish database connection for tenant " ++ "acme") :=
  ⟨by decide, c7_amended_uniform_failure "acme" .timedOut (by decide)⟩

/-- C10 counterexample: with tier 2 connected and healthy, `set` of the
falsy value `0` immediately followed by `get` returns `0` — not a cache
miss: the tier-1 entry fails the truthiness test, but the tier-2 read
serves the value back (`JSON.stringify(0) = "0"` is a truthy string), so
the round-trip does not hold *only* for truthy values. -/
theorem c10_counterexample :
    (CacheManager.get .healthy
        (CacheManager.set .healthy (CMState.mk [] [] true) "t1" (.vNum 0)) "t1").1
      = some (.vNum 0) := by
  rfl

/-- C10 amended: the tier-1 lookup treats falsy entries (`null`, `0`,
`""`, `false`) as absent; consequently the set-then-get round-trip holds
for every truthy value via tier 1, and when tier 2 is disconnected it
holds *only* for truthy values (falsy values are reported as a miss); but
with tier 2 connected and healthy a falsy value is still returned through
the tier-2 path, whose serialized string is truthy. -/
theorem c10_roundtrip_truthiness (st : CMState) (tenantId : String)
    (v : JVal) (mode : L2Mode) :
    (v.truthy = true →
      (CacheManager.get mode (CacheManager.set mode st tenantId v) tenantId).1 = some v) ∧
    (st.isRedisConnected = false →
      (CacheManager.get .healthy (CacheManager.set .healthy st tenantId v) tenantId).1
        = if v.truthy then some v else none) := by
  have hl1 : ∀ m : L2Mode, alookup (CacheManager.set m st tenantId v).l1Cache
      (generateKey tenantId) = some v := by
    intro m
    simp only [CacheManager.set, l2SetRaw]
    cases h : st.isRedisConnected <;> cases m <;> simp [alookup_aset_self]
  constructor
  · intro htruthy
    simp only [CacheManager.get, hl1 mode, optTruthy, htruthy, if_true]
  · intro hdisc
    have hconn : (CacheManager.set .healthy st tenantId v).isRedisConnected = false := by
      simp only [CacheManager.set, l2SetRaw]
      simp [hdisc]
    cases htr : v.truthy with
    | true => simp only [CacheManager.get, hl1 .healthy, optTruthy, htr, if_true]
    | false =>
      simp only [CacheManager.get, hl1 .healthy, optTruthy, htr, hconn]
      simp

theorem c10_roundtrip_truthiness_witness :
    ((JVal.vStr "x").truthy = true →
      (CacheManager.get .healthy
          (CacheManager.set .healthy (CMState.mk [] [] false) "t1" (.vStr "x")) "t1").1
        = some (.vStr "x")) ∧
    ((CMState.mk [] [] false).isRedisConnected = false →
      (CacheManager.get .healthy
          (CacheManager.set .healthy (CMState.mk [] [] false) "t1" (.vStr "x")) "t1").1
        = if (JVal.vStr "x").truthy then some (.vStr "x") else none) :=
  c10_roundtrip_truthiness (CMState.mk [] [] false) "t1" (.vStr "x") .healthy

/-! ## Helper lemmas about the sequential registry model -/

theorem regCacheGet_registered (st : RegistryState) (t : String) :
    (regCacheGet st t).2.registeredSchemas = st.registeredSchemas := by
  unfold regCacheGet
  cases h : alookup st.l1 (generateKey t) with
  | some v => simp [h]
  | none =>
    cases hc : st.l2Connected with
    | false => simp [h, hc]
    | true =>
      cases h2 : alookup st.l2 (generateKey t) with
      | some v => simp [h, hc, h2]
      | none => simp [h, hc, h2]

theorem getCachedModels_miss (cr : String → Except String Unit)
    (st : RegistryState) (t : String)
    (h1 : alookup st.l1 (generateKey t) = none)
    (h2 : st.l2Connected = false ∨ alookup st.l2 (generateKey t) = none) :
    getCachedModels cr st t = (none, { st with misses := st.misses + 1 }) := by
  rcases h2 with hc | hl2
  · simp [getCachedModels, regCacheGet, h1, hc]
  · cases hc : st.l2Connected with
    | false => simp [getCachedModels, regCacheGet, h1, hc]
    | true => simp [getCachedModels, regCacheGet, h1, hc, hl2]

theorem getOrCreateConn_ok_fields (cr : String → Except String Unit)
    (st : RegistryState) (t : String) (ms : List String) (st2 : RegistryState)
    (h : getOrCreateConn cr st t = .ok (ms, st2)) :
    st2.registeredSchemas = st.registeredSchemas ∧ st2.l1 = st.l1 ∧
      st2.l2 = st.l2 ∧ st2.misses = st.misses := by
  unfold getOrCreateConn at h
  cases hm : alookup st.connModels t with
  | some ms' => rw [hm] at h; cases h; exact ⟨rfl, rfl, rfl, rfl⟩
  | none =>
    rw [hm] at h
    cases hcr : cr t with
    | ok u => rw [hcr] at h; cases h; exact ⟨rfl, rfl, rfl, rfl⟩
    | error e => rw [hcr] at h; cases h

theorem getCachedModels_registered (cr : String → Except String Unit)
    (st : RegistryState) (t : String) :
    (getCachedModels cr st t).2.registeredSchemas = st.registeredSchemas := by
  unfold getCachedModels
  cases hp : regCacheGet st t with
  | mk o st1 =>
    have hreg : st1.registeredSchemas = st.registeredSchemas := by
      have h := regCacheGet_registered st t
      rw [hp] at h
      exact h
    cases o with
    | none => simpa using hreg
    | some cd =>
      cases hoc : getOrCreateConn cr st1 t with
      | error e =>
        simp only [hoc]
        simpa using hreg
      | ok p =>
        obtain ⟨ms, st2⟩ := p
        obtain ⟨hreg2, -, -, -⟩ := getOrCreateConn_ok_fields cr st1 t ms st2 hoc
        simp only [hoc]
        by_cases hlv : cd.cacheLevel = some "L1"
        · simp [hlv, hreg2, hreg]
        · simp [hlv, hreg2, hreg]

theorem bindSchemas_okBind (ms l : List String) :
    (bindSchemas okBind ms l).1 = .ok () := by
  induction l generalizing ms with
  | nil => rfl
  | cons name rest ih =>
    unfold bindSchemas
    by_cases h : name ∈ ms
    · simp only [h, if_true]
      exact ih ms
    · simp only [h, if_false]
      exact ih (ms ++ [name])

theorem createTenantModels_ok_oracle (st : RegistryState) (t : String) :
    (createTenantModels okConn okBind st t).1 = .ok st.registeredSchemas := by
  unfold createTenantModels
  cases hoc : getOrCreateConn okConn st t with
  | error e =>
    exfalso
    unfold getOrCreateConn at hoc
    cases hm : alookup st.connModels t with
    | some ms' => rw [hm] at hoc; cases hoc
    | none => rw [hm] at hoc; cases hoc
  | ok p =>
    obtain ⟨ms0, st1⟩ := p
    obtain ⟨hreg, -, -, -⟩ := getOrCreateConn_ok_fields okConn st t ms0 st1 hoc
    simp only [hoc]
    cases hb : bindSchemas okBind ms0 st1.registeredSchemas with
    | mk r ms1 =>
      have hr : r = Except.ok () := by
        have h := bindSchemas_okBind ms0 st1.registeredSchemas
        rw [hb] at h
        exact h
      subst hr
      simp only [hb]
      simp [hreg]

theorem createTenantModels_ok_payload (cr br : String → Except String Unit)
    (st : RegistryState) (t : String) (ms : List String)
    (h : (createTenantModels cr br st t).1 = .ok ms) :
    ms = st.registeredSchemas := by
  unfold createTenantModels at h
  cases hoc : getOrCreateConn cr st t with
  | error e => rw [hoc] at h; cases h
  | ok p =>
    obtain ⟨ms0, st1⟩ := p
    rw [hoc] at h
    simp only at h
    obtain ⟨hreg, -, -, -⟩ := getOrCreateConn_ok_fields cr st t ms0 st1 hoc
    cases hb : bindSchemas br ms0 st1.registeredSchemas with
    | mk r ms1 =>
      rw [hb] at h
      cases r with
      | error e => simp at h
      | ok u =>
        simp only at h
        rw [hreg] at h
        exact (Except.ok.inj h).symm

theorem createTenantModels_shape (cr br : String → Except String Unit)
    (st : RegistryState) (t : String) :
    ∃ cm, (createTenantModels cr br st t).2 = { st with connModels := cm } := by
  unfold createTenantModels getOrCreateConn
  cases hm : alookup st.connModels t with
  | some ms =>
    cases hb : bindSchemas br ms st.registeredSchemas with
    | mk r ms1 =>
      simp only [hb]
      cases r <;> exact ⟨aset st.connModels t ms1, rfl⟩
  | none =>
    cases hcr : cr t with
    | ok u =>
      cases hb : bindSchemas br [] st.registeredSchemas with
      | mk r ms1 =>
        simp only [hcr, hb]
        cases r <;>
          exact ⟨aset (aset st.connModels t []) t ms1, rfl⟩
    | error e =>
      simp only [hcr]
      exact ⟨st.connModels, rfl⟩

theorem createTenantModels_misses_shift (cr br : String → Except String Unit)
    (st : RegistryState) (t : String) (m : Nat) :
    createTenantModels cr br { st with misses := m } t
      = ((createTenantModels cr br st t).1,
         { (createTenantModels cr br st t).2 with misses := m }) := by
  unfold createTenantModels getOrCreateConn
  cases hm : alookup st.connModels t with
  | some ms =>
    cases hb : bindSchemas br ms st.registeredSchemas with
    | mk r ms1 =>
      simp only [hb]
      cases r <;> rfl
  | none =>
    cases hcr : cr t with
    | ok u =>
      cases hb : bindSchemas br [] st.registeredSchemas with
      | mk r ms1 =>
        simp only [hcr, hb]
        cases r <;> rfl
    | error e =>
      simp only [hcr]

theorem getCachedModels_some_sub (cr : String → Except String Unit)
    (st : RegistryState) (t : String) (ms : List String)
    (h : (getCachedModels cr st t).1 = some ms) :
    ∀ x ∈ ms, x ∈ st.registeredSchemas := by
  unfold getCachedModels at h
  cases hp : regCacheGet st t with
  | mk o st1 =>
    simp only [hp] at h
    have hreg : st1.registeredSchemas = st.registeredSchemas := by
      have hr := regCacheGet_registered st t
      rw [hp] at hr
      exact hr
    cases o with
    | none => simp at h
    | some cd =>
      cases hoc : getOrCreateConn cr st1 t with
      | error e => simp only [hoc] at h; simp at h
      | ok p =>
        obtain ⟨ms0, st2⟩ := p
        simp only [hoc] at h
        obtain ⟨hreg2, -, -, -⟩ := getOrCreateConn_ok_fields cr st1 t ms0 st2 hoc
        have hms : ms = cd.models.filter (fun m => decide (m ∈ st2.registeredSchemas)) := by
          by_cases hlv : cd.cacheLevel = some "L1" <;> simp [hlv] at h <;> exact h.symm
        intro x hx
        rw [hms] at hx
        have hmem := List.of_mem_filter hx
        rw [hreg2, hreg] at hmem
        simpa using hmem

theorem getModels_ok_sub (cr br : String → Except String Unit)
    (st : RegistryState) (t : String) (ms : List String)
    (h : (getModels cr br st t).1 = .ok ms) :
    ∀ x ∈ ms, x ∈ st.registeredSchemas := by
  unfold getModels at h
  by_cases ht : t = ""
  · rw [if_pos ht] at h
    exact absurd h (by simp)
  · rw [if_neg ht] at h
    cases hp1 : getCachedModels cr st t with
    | mk o1 st1 =>
      simp only [hp1] at h
      have hreg1 : st1.registeredSchemas = st.registeredSchemas := by
        have hr := getCachedModels_registered cr st t
        rw [hp1] at hr
        exact hr
      cases o1 with
      | some m =>
        have hms : m = ms := by simpa using h
        subst hms
        exact getCachedModels_some_sub cr st t m (by rw [hp1])
      | none =>
        cases hp2 : getCachedModels cr st1 t with
        | mk o2 st2 =>
          simp only [hp2] at h
          have hreg2 : st2.registeredSchemas = st1.registeredSchemas := by
            have hr := getCachedModels_registered cr st1 t
            rw [hp2] at hr
            exact hr
          cases o2 with
          | some m =>
            have hms : m = ms := by simpa using h
            subst hms
            intro x hx
            rw [← hreg1]
            exact getCachedModels_some_sub cr st1 t m (by rw [hp2]) x hx
          | none =>
            cases hp3 : createTenantModels cr br st2 t with
            | mk r st3 =>
              simp only [hp3] at h
              cases r with
              | error e => simp at h
              | ok models =>
                have hms : models = ms := by simpa using h
                have hpl := createTenantModels_ok_payload cr br st2 t models (by rw [hp3])
                intro x hx
                rw [← hms, hpl, hreg2, hreg1] at hx
                exact hx

theorem cacheModels_registered (st : RegistryState) (t : String) (ms : List String) :
    (cacheModels st t ms).registeredSchemas = st.registeredSchemas := by
  unfold cacheModels regCacheSet
  cases h : st.l2Connected <;> simp [h]

theorem getModels_uncached_okOracle (st0 : RegistryState) (t : String)
    (ht : t ≠ "")
    (h1 : alookup st0.l1 (generateKey t) = none)
    (h2 : st0.l2Connected = false ∨ alookup st0.l2 (generateKey t) = none) :
    ∃ st1, getModels okConn okBind st0 t = (.ok st0.registeredSchemas, st1) ∧
      st1.registeredSchemas = st0.registeredSchemas := by
  unfold getModels
  rw [if_neg ht, getCachedModels_miss okConn st0 t h1 h2]
  simp only [getCachedModels_miss okConn { st0 with misses := st0.misses + 1 } t h1 h2,
    createTenantModels_misses_shift, createTenantModels_ok_oracle]
  obtain ⟨cm, hsh⟩ := createTenantModels_shape okConn okBind st0 t
  refine ⟨_, rfl, ?_⟩
  simp [cacheModels_registered, hsh]

/-! ## Claims about the sequential registry -/

/-- C5: if any step of cold materialization fails (connection failure or a
schema-bind error), `getModels` for an uncached tenant increments the
error counter, propagates the error to the caller, and writes nothing to
either cache tier; the cold-materialization counter is untouched. -/
theorem c5_failed_materialization_leaves_no_cache (cr br : String → Except String Unit)
    (st : RegistryState) (t : String) (e : String)
    (ht : t ≠ "")
    (h1 : alookup st.l1 (generateKey t) = none)
    (h2 : st.l2Connected = false ∨ alookup st.l2 (generateKey t) = none)
    (hfail : (createTenantModels cr br st t).1 = .error e) :
    (getModels cr br st t).1 = .error e ∧
    (getModels cr br st t).2.l1 = st.l1 ∧
    (getModels cr br st t).2.l2 = st.l2 ∧
    (getModels cr br st t).2.errors = st.errors + 1 ∧
    (getModels cr br st t).2.modelCreations = st.modelCreations := by
  have hchar : getModels cr br st t
      = (Except.error e,
         { (createTenantModels cr br st t).2 with
             misses := st.misses + 1 + 1,
             errors := (createTenantModels cr br st t).2.errors + 1 }) := by
    unfold getModels
    rw [if_neg ht, getCachedModels_miss cr st t h1 h2]
    simp only [getCachedModels_miss cr { st with misses := st.misses + 1 } t h1 h2,
      createTenantModels_misses_shift]
    rw [hfail]
  obtain ⟨cm, hshape⟩ := createTenantModels_shape cr br st t
  rw [hchar, hshape]
  exact ⟨rfl, rfl, rfl, rfl, rfl⟩

theorem c5_failed_materialization_leaves_no_cache_witness :
    ("acme" ≠ "" ∧
      alookup c3Init.l1 (generateKey "acme") = none ∧
      (c3Init.l2Connected = false ∨ alookup c3Init.l2 (generateKey "acme") = none) ∧
      (createTenantModels (fun _ => .error "Failed to establish database connection for tenant acme")
        okBind c3Init "acme").1 = .error "Failed to establish database connection for tenant acme") ∧
    ((getModels (fun _ => .error "Failed to establish database connection for tenant acme")
        okBind c3Init "acme").1 = .error "Failed to establish database connection for tenant acme" ∧
      (getModels (fun _ => .error "Failed to establish database connection for tenant acme")
        okBind c3Init "acme").2.l1 = c3Init.l1 ∧
      (getModels (fun _ => .error "Failed to establish database connection for tenant acme")
        okBind c3Init "acme").2.l2 = c3Init.l2 ∧
      (getModels (fun _ => .error "Failed to establish database connection for tenant acme")
        okBind c3Init "acme").2.errors = c3Init.errors + 1 ∧
      (getModels (fun _ => .error "Failed to establish database connection for tenant acme")
        okBind c3Init "acme").2.modelCreations = c3Init.modelCreations) :=
  ⟨⟨by decide, rfl, Or.inl rfl, rfl⟩,
    c5_failed_materialization_leaves_no_cache
      (fun _ => .error "Failed to establish database connection for tenant acme")
      okBind c3Init "acme" "Failed to establish database connection for tenant acme"
      (by decide) rfl (Or.inl rfl) rfl⟩

/-- C3: in the sequential two-call scenario the first call cold-creates
(creation counter 1, tier-1 hits 0), and the second call is served from
tier 1 — but because `CacheManager` never writes a `cacheLevel` field, the
`cachedData.cacheLevel === "L1"` test in `getCachedModels` is false and
the *tier-2* hit counter is incremented: after the second call the tier-1
hit counter is still 0 and the tier-2 hit counter is 1, contradicting the
claimed tier-1 hit = 1. -/
theorem c3_tier1_hit_recorded_as_tier2 :
    (getModels okConn okBind c3Init "acme").1 = .ok ["User", "Project"] ∧
    (getModels okConn okBind c3Init "acme").2.modelCreations = 1 ∧
    (getModels okConn okBind c3Init "acme").2.hitsL1 = 0 ∧
    (getModels okConn okBind (getModels okConn okBind c3Init "acme").2 "acme").1
      = .ok ["User", "Project"] ∧
    (getModels okConn okBind (getModels okConn okBind c3Init "acme").2 "acme").2.modelCreations = 1 ∧
    (getModels okConn okBind (getModels okConn okBind c3Init "acme").2 "acme").2.hitsL1 = 0 ∧
    (getModels okConn okBind (getModels okConn okBind c3Init "acme").2 "acme").2.hitsL2 = 1 :=
  ⟨rfl, rfl, rfl, rfl, rfl, rfl, rfl⟩

/-- C2 counterexample: tenant `acme` was materialized and cached while the
catalogue held `{User, Project}` (exactly the state one `getModels` run
reaches from `c3Init`).  `getModel("acme", "UnknownCollection")`
auto-registers the name, but the cache hit reconstructs only the cached
names, so the call throws `Model ... not found` instead of returning a
handle — refuting the claim for already-cached tenants. -/
theorem c2_counterexample_cached_tenant :
    c2CachedState = (getModels okConn okBind c3Init "acme").2 ∧
    (getModel okConn okBind c2CachedState "acme" "UnknownCollection").1
      = .error "Model UnknownCollection not found for tenant acme" :=
  ⟨rfl, rfl⟩

/-- C2 amended: `getModel` auto-registers an unknown name against the
fallback master-data schema; when the tenant's model set is *not* served
from cache, the cold materialization binds every registered schema
including the new one and `getModel` returns a usable handle.  (When a
cache entry written before the registration is hit, the reconstruction
contains only the cached names and `getModel` throws `ModelNotFound`, as
the counterexample shows.) -/
theorem c2_uncached_auto_registration_returns_handle
    (st : RegistryState) (t name : String)
    (ht : t ≠ "") (hn : name ≠ "")
    (h1 : alookup st.l1 (generateKey t) = none)
    (h2 : st.l2Connected = false ∨ alookup st.l2 (generateKey t) = none) :
    (getModel okConn okBind st t name).1 = .ok name ∧
    name ∈ (getModel okConn okBind st t name).2.registeredSchemas := by
  unfold getModel registerSchema
  by_cases hreg : name ∈ st.registeredSchemas
  · obtain ⟨st1, hgm, hst1⟩ := getModels_uncached_okOracle st t ht h1 h2
    simp only [if_pos hreg, hgm, if_pos hreg]
    exact ⟨trivial, by rw [hst1]; exact hreg⟩
  · obtain ⟨st1, hgm, hst1⟩ :=
      getModels_uncached_okOracle
        { st with registeredSchemas := st.registeredSchemas ++ [name] } t ht h1 h2
    have hmem : name ∈ st.registeredSchemas ++ [name] := by simp
    simp only [if_neg hreg, if_neg hn, hgm, if_pos hmem]
    exact ⟨trivial, by rw [hst1]; exact hmem⟩

theorem c2_uncached_auto_registration_returns_handle_witness :
    ("acme" ≠ "" ∧ "UnknownCollection" ≠ "" ∧
      alookup c3Init.l1 (generateKey "acme") = none ∧
      (c3Init.l2Connected = false ∨ alookup c3Init.l2 (generateKey "acme") = none)) ∧
    ((getModel okConn okBind c3Init "acme" "UnknownCollection").1 = .ok "UnknownCollection" ∧
      "UnknownCollection" ∈
        (getModel okConn okBind c3Init "acme" "UnknownCollection").2.registeredSchemas) :=
  ⟨⟨by decide, by decide, rfl, Or.inl rfl⟩,
    c2_uncached_auto_registration_returns_handle c3Init "acme" "UnknownCollection"
      (by decide) (by decide) rfl (Or.inl rfl)⟩

/-- C8: after `unregisterSchema(name)`, no `getModels` call for any tenant
returns a handle for `name`: the removal empties both cache tiers
(tier 2 when connected), and even against a stale cache entry the
reconstruction skips names that are no longer registered, so every
successful `getModels` result omits `name`. -/
theorem c8_unregister_never_serves_name (cr br : String → Except String Unit)
    (st : RegistryState) (name t : String) (ms : List String)
    (hres : (getModels cr br (unregisterSchema st name) t).1 = .ok ms) :
    name ∉ ms ∧
    (name ∈ st.registeredSchemas →
      (unregisterSchema st name).l1 = [] ∧
      ((unregisterSchema st name).l2Connected = true → (unregisterSchema st name).l2 = [])) := by
  have hnot : name ∉ (unregisterSchema st name).registeredSchemas := by
    unfold unregisterSchema
    by_cases h : name ∈ st.registeredSchemas
    · rw [if_pos h]
      unfold regCacheClear
      by_cases hc : st.l2Connected
      · simp [hc, List.mem_filter]
      · simp [hc, List.mem_filter]
    · rw [if_neg h]
      exact h
  constructor
  · intro hmem
    exact hnot (getModels_ok_sub cr br (unregisterSchema st name) t ms hres name hmem)
  · intro hin
    unfold unregisterSchema regCacheClear
    rw [if_pos hin]
    by_cases hc : st.l2Connected
    · simp [hc]
    · simp [hc]

theorem c8_unregister_never_serves_name_witness :
    (getModels okConn okBind (unregisterSchema c2CachedState "User") "acme").1
      = .ok ["Project"] ∧
    ("User" ∉ ["Project"] ∧
      ("User" ∈ c2CachedState.registeredSchemas →
        (unregisterSchema c2CachedState "User").l1 = [] ∧
        ((unregisterSchema c2CachedState "User").l2Connected = true →
          (unregisterSchema c2CachedState "User").l2 = []))) :=
  ⟨rfl, c8_unregister_never_serves_name okConn okBind c2CachedState "User" "acme"
    ["Project"] rfl⟩

/-! ## Helper lemmas for the concurrent single-flight model -/

theorem getElem?_set_cases {α : Type} (l : List α) (k j : Nat) (x a : α)
    (h : (l.set k x)[j]? = some a) :
    (j = k ∧ a = x) ∨ (j ≠ k ∧ l[j]? = some a) := by
  by_cases hjk : j = k
  · subst hjk
    have hlen : j < l.length := by
      have h2 := (List.getElem?_eq_some.mp h).1
      simpa [List.length_set] using h2
    rw [List.getElem?_set_self hlen] at h
    exact Or.inl ⟨rfl, (Option.some.inj h).symm⟩
  · right
    refine ⟨hjk, ?_⟩
    rwa [List.getElem?_set_ne (fun he => hjk he.symm)] at h

theorem reconResult_self (schemas : List String) :
    reconResult schemas schemas = schemas := by
  unfold reconResult
  rw [List.filter_eq_self]
  intro a ha
  simpa using ha

theorem addModels_sub (l ms : List String) (h : ∀ m ∈ l, m ∈ ms) :
    addModels ms l = ms := by
  induction l generalizing ms with
  | nil => rfl
  | cons m rest ih =>
    unfold addModels
    rw [if_pos (h m (List.mem_cons_self m rest))]
    exact ih ms (fun x hx => h x (List.mem_cons_of_mem m hx))

theorem reconConn_self (schemas : List String) :
    reconConn schemas schemas schemas = schemas := by
  unfold reconConn
  rw [reconResult_self]
  exact addModels_sub schemas schemas (fun m hm => hm)

theorem nodup_notMem_take (schemas : List String) (hnd : schemas.Nodup)
    (i : Nat) (name : String) (hi : schemas[i]? = some name) :
    ¬ name ∈ schemas.take i := by
  intro hmem
  obtain ⟨hlt, hget⟩ := List.getElem?_eq_some.mp hi
  obtain ⟨j, hj⟩ := List.mem_iff_getElem?.mp hmem
  obtain ⟨hjlt, hjget⟩ := List.getElem?_eq_some.mp hj
  have hj2 := hjlt
  rw [List.length_take] at hj2
  obtain ⟨hji, hjlen⟩ := Nat.lt_min.mp hj2
  have heq : schemas[j] = schemas[i] := by
    have h1 : (schemas.take i)[j] = schemas[j] := List.getElem_take schemas
    rw [← h1, hjget, hget]
  have := (hnd.getElem_inj_iff).mp heq
  omega

theorem countP_set_eq (p : Pc → Bool) (l : List Pc) (k : Nat) (pcK x : Pc)
    (hk : l[k]? = some pcK) :
    (l.set k x).countP p
      = (l.countP p - (if p pcK then 1 else 0)) + (if p x then 1 else 0) := by
  obtain ⟨hlt, hget⟩ := List.getElem?_eq_some.mp hk
  rw [List.countP_set p l k x hlt, hget]

theorem countP_ge_one (p : Pc → Bool) (l : List Pc) (k : Nat) (a : Pc)
    (hk : l[k]? = some a) (hp : p a = true) : 1 ≤ l.countP p := by
  have hmem : a ∈ l := List.mem_iff_getElem?.mpr ⟨k, hk⟩
  have hpos : 0 < l.countP p := List.countP_pos.mpr ⟨a, hmem, hp⟩
  omega

theorem noOtherHolder (tasks : List Pc) (k : Nat) (pcK : Pc)
    (hk : tasks[k]? = some pcK) (hpcK : pcK.holdsLock = true)
    (hold : ∀ (i j : Nat) (pci pcj : Pc), i ≠ j → tasks[i]? = some pci →
      tasks[j]? = some pcj → pci.holdsLock = true → pcj.holdsLock = true → False) :
    ∀ (j : Nat) (pc : Pc), j ≠ k → tasks[j]? = some pc → pc.holdsLock = false := by
  intro j pc hjk hj
  cases h : pc.holdsLock
  · rfl
  · exact (hold k j pcK pc (fun he => hjk he.symm) hk hj hpcK h).elim

theorem lockExcl_set (tasks : List Pc) (k : Nat) (x : Pc)
    (hold : ∀ (i j : Nat) (pci pcj : Pc), i ≠ j → tasks[i]? = some pci →
      tasks[j]? = some pcj → pci.holdsLock = true → pcj.holdsLock = true → False)
    (hx : x.holdsLock = true →
      ∀ (j : Nat) (pc : Pc), j ≠ k → tasks[j]? = some pc → pc.holdsLock = false) :
    ∀ (i j : Nat) (pci pcj : Pc), i ≠ j → (tasks.set k x)[i]? = some pci →
      (tasks.set k x)[j]? = some pcj →
      pci.holdsLock = true → pcj.holdsLock = true → False := by
  intro i j pci pcj hij hi hj hpi hpj
  rcases getElem?_set_cases tasks k i x pci hi with ⟨hik, hpcix⟩ | ⟨hik, hi2⟩
  · rcases getElem?_set_cases tasks k j x pcj hj with ⟨hjk, hpcjx⟩ | ⟨hjk, hj2⟩
    · exact hij (hik.trans hjk.symm)
    · subst hpcix
      have hf := hx hpi j pcj hjk hj2
      exact Bool.noConfusion (hf.symm.trans hpj)
  · rcases getElem?_set_cases tasks k j x pcj hj with ⟨hjk, hpcjx⟩ | ⟨hjk, hj2⟩
    · subst hpcjx
      have hf := hx hpj i pci hik hi2
      exact Bool.noConfusion (hf.symm.trans hpi)
    · exact hold i j pci pcj hij hi2 hj2 hpi hpj

theorem connOrigin_set_preserve (tasks : List Pc) (k : Nat) (pcK x : Pc)
    (hk : tasks[k]? = some pcK)
    (hKshape : (pcK = .openWait ∨ (∃ i, pcK = .bind i) ∨ (∃ i, pcK = .indexWait i)) →
      (x = .openWait ∨ (∃ i, x = .bind i) ∨ (∃ i, x = .indexWait i)))
    (hwit : ∃ (j : Nat) (pc : Pc), tasks[j]? = some pc ∧
      (pc = .openWait ∨ (∃ i, pc = .bind i) ∨ (∃ i, pc = .indexWait i))) :
    ∃ (j : Nat) (pc : Pc), (tasks.set k x)[j]? = some pc ∧
      (pc = .openWait ∨ (∃ i, pc = .bind i) ∨ (∃ i, pc = .indexWait i)) := by
  obtain ⟨j, pc, hj, hshape⟩ := hwit
  by_cases hjk : j = k
  · subst hjk
    rw [hk] at hj
    obtain rfl := (Option.some.inj hj).symm
    have hxs := hKshape hshape
    have hlen : j < tasks.length := (List.getElem?_eq_some.mp hk).1
    exact ⟨j, x, by rw [List.getElem?_set_self hlen], hxs⟩
  · exact ⟨j, pc, by rw [List.getElem?_set_ne (fun he => hjk he.symm)]; exact hj, hshape⟩

theorem inv_step (schemas : List String) (c : Bool) (hnd : schemas.Nodup)
    (s s' : Cfg) (hstep : Step schemas c s s') (hinv : Inv schemas c s) :
    Inv schemas c s' := by
  obtain ⟨lockExcl, l1Val, l2Val, opensConn, creatPend, connOrigin, tasksOK⟩ := hinv
  cases hstep with
  | startHit k d hk hl1 =>
    obtain ⟨hds, hcs⟩ := l1Val d hl1
    refine ⟨?_, l1Val, l2Val, opensConn, ?_, ?_, ?_⟩
    · exact lockExcl_set s.tasks k (.reconNoLock d) lockExcl
        (fun hxh => by simp [Pc.holdsLock] at hxh)
    · rw [countP_set_eq Pc.isPend s.tasks k .start (.reconNoLock d) hk]
      simpa [Pc.isPend] using creatPend
    · intro hconn
      rcases connOrigin hconn with hl | hwit
      · exact Or.inl hl
      · exact Or.inr (connOrigin_set_preserve s.tasks k .start (.reconNoLock d) hk
          (fun hsh => by rcases hsh with h | ⟨i, h⟩ | ⟨i, h⟩ <;> simp at h) hwit)
    · intro j pc hj
      rcases getElem?_set_cases s.tasks k j (.reconNoLock d) pc hj with ⟨rfl, rfl⟩ | ⟨hjk, hj2⟩
      · rw [hds] at hl1
        exact ⟨hds, hl1⟩
      · exact tasksOK j pc hj2
  | startL2 k hk hl1 hc =>
    refine ⟨?_, l1Val, l2Val, opensConn, ?_, ?_, ?_⟩
    · exact lockExcl_set s.tasks k .l2Read1 lockExcl
        (fun hxh => by simp [Pc.holdsLock] at hxh)
    · rw [countP_set_eq Pc.isPend s.tasks k .start .l2Read1 hk]
      simpa [Pc.isPend] using creatPend
    · intro hconn
      rcases connOrigin hconn with hl | hwit
      · exact Or.inl hl
      · exact Or.inr (connOrigin_set_preserve s.tasks k .start .l2Read1 hk
          (fun hsh => by rcases hsh with h | ⟨i, h⟩ | ⟨i, h⟩ <;> simp at h) hwit)
    · intro j pc hj
      rcases getElem?_set_cases s.tasks k j .l2Read1 pc hj with ⟨rfl, rfl⟩ | ⟨hjk, hj2⟩
      · exact hc
      · exact tasksOK j pc hj2
  | startMiss k hk hl1 hc =>
    refine ⟨?_, l1Val, l2Val, opensConn, ?_, ?_, ?_⟩
    · exact lockExcl_set s.tasks k .waitMutex lockExcl
        (fun hxh => by simp [Pc.holdsLock] at hxh)
    · rw [countP_set_eq Pc.isPend s.tasks k .start .waitMutex hk]
      simpa [Pc.isPend] using creatPend
    · intro hconn
      rcases connOrigin hconn with hl | hwit
      · exact Or.inl hl
      · exact Or.inr (connOrigin_set_preserve s.tasks k .start .waitMutex hk
          (fun hsh => by rcases hsh with h | ⟨i, h⟩ | ⟨i, h⟩ <;> simp at h) hwit)
    · intro j pc hj
      rcases getElem?_set_cases s.tasks k j .waitMutex pc hj with ⟨rfl, rfl⟩ | ⟨hjk, hj2⟩
      · trivial
      · exact tasksOK j pc hj2
  | l2Read1Hit k d hk hl2 =>
    obtain ⟨hds, hl1s⟩ := l2Val d hl2
    have he : (some d : Option (List String)) = s.l1 := by rw [hds, hl1s]
    refine ⟨?_, ?_, ?_, opensConn, ?_, ?_, ?_⟩
    · exact lockExcl_set s.tasks k (.reconNoLock d) lockExcl
        (fun hxh => by simp [Pc.holdsLock] at hxh)
    · intro d' hd'
      obtain rfl := (Option.some.inj hd').symm
      exact ⟨hds, (l1Val schemas hl1s).2⟩
    · intro d' hd'
      obtain ⟨hd's, -⟩ := l2Val d' hd'
      exact ⟨hd's, by rw [hds]⟩
    · rw [countP_set_eq Pc.isPend s.tasks k .l2Read1 (.reconNoLock d) hk]
      have h0 := creatPend
      rw [hl1s] at h0
      simpa [Pc.isPend] using h0
    · intro hconn
      exact Or.inl (by rw [hds])
    · intro j pc hj
      rcases getElem?_set_cases s.tasks k j (.reconNoLock d) pc hj with ⟨rfl, rfl⟩ | ⟨hjk, hj2⟩
      · exact ⟨hds, by rw [hds]⟩
      · rw [he]
        exact tasksOK j pc hj2
  | l2Read1Miss k hk =>
    refine ⟨?_, l1Val, l2Val, opensConn, ?_, ?_, ?_⟩
    · exact lockExcl_set s.tasks k .waitMutex lockExcl
        (fun hxh => by simp [Pc.holdsLock] at hxh)
    · rw [countP_set_eq Pc.isPend s.tasks k .l2Read1 .waitMutex hk]
      simpa [Pc.isPend] using creatPend
    · intro hconn
      rcases connOrigin hconn with hl | hwit
      · exact Or.inl hl
      · exact Or.inr (connOrigin_set_preserve s.tasks k .l2Read1 .waitMutex hk
          (fun hsh => by rcases hsh with h | ⟨i, h⟩ | ⟨i, h⟩ <;> simp at h) hwit)
    · intro j pc hj
      rcases getElem?_set_cases s.tasks k j .waitMutex pc hj with ⟨rfl, rfl⟩ | ⟨hjk, hj2⟩
      · trivial
      · exact tasksOK j pc hj2
  | acquire k hk hfree =>
    refine ⟨?_, l1Val, l2Val, opensConn, ?_, ?_, ?_⟩
    · exact lockExcl_set s.tasks k .inMutex lockExcl
        (fun _ j pc hjk hj => hfree pc (List.mem_iff_getElem?.mpr ⟨j, hj⟩))
    · rw [countP_set_eq Pc.isPend s.tasks k .waitMutex .inMutex hk]
      simpa [Pc.isPend] using creatPend
    · intro hconn
      rcases connOrigin hconn with hl | hwit
      · exact Or.inl hl
      · exact Or.inr (connOrigin_set_preserve s.tasks k .waitMutex .inMutex hk
          (fun hsh => by rcases hsh with h | ⟨i, h⟩ | ⟨i, h⟩ <;> simp at h) hwit)
    · intro j pc hj
      rcases getElem?_set_cases s.tasks k j .inMutex pc hj with ⟨rfl, rfl⟩ | ⟨hjk, hj2⟩
      · trivial
      · exact tasksOK j pc hj2
  | inMutexHit k d hk hl1 =>
    obtain ⟨hds, hcs⟩ := l1Val d hl1
    refine ⟨?_, l1Val, l2Val, opensConn, ?_, ?_, ?_⟩
    · exact lockExcl_set s.tasks k (.reconLock d) lockExcl
        (fun _ => noOtherHolder s.tasks k .inMutex hk rfl lockExcl)
    · rw [countP_set_eq Pc.isPend s.tasks k .inMutex (.reconLock d) hk]
      simpa [Pc.isPend] using creatPend
    · intro hconn
      rcases connOrigin hconn with hl | hwit
      · exact Or.inl hl
      · exact Or.inr (connOrigin_set_preserve s.tasks k .inMutex (.reconLock d) hk
          (fun hsh => by rcases hsh with h | ⟨i, h⟩ | ⟨i, h⟩ <;> simp at h) hwit)
    · intro j pc hj
      rcases getElem?_set_cases s.tasks k j (.reconLock d) pc hj with ⟨rfl, rfl⟩ | ⟨hjk, hj2⟩
      · rw [hds] at hl1
        exact ⟨hds, hl1⟩
      · exact tasksOK j pc hj2
  | inMutexL2 k hk hl1 hc =>
    have hl2n : s.l2 = none := by
      cases hl2c : s.l2 with
      | none => rfl
      | some d =>
        obtain ⟨-, hsome⟩ := l2Val d hl2c
        rw [hsome] at hl1
        simp at hl1
    refine ⟨?_, l1Val, l2Val, opensConn, ?_, ?_, ?_⟩
    · exact lockExcl_set s.tasks k .l2Read2 lockExcl
        (fun _ => noOtherHolder s.tasks k .inMutex hk rfl lockExcl)
    · rw [countP_set_eq Pc.isPend s.tasks k .inMutex .l2Read2 hk]
      simpa [Pc.isPend] using creatPend
    · intro hconn
      rcases connOrigin hconn with hl | hwit
      · exact Or.inl hl
      · exact Or.inr (connOrigin_set_preserve s.tasks k .inMutex .l2Read2 hk
          (fun hsh => by rcases hsh with h | ⟨i, h⟩ | ⟨i, h⟩ <;> simp at h) hwit)
    · intro j pc hj
      rcases getElem?_set_cases s.tasks k j .l2Read2 pc hj with ⟨rfl, rfl⟩ | ⟨hjk, hj2⟩
      · exact ⟨hc, hl1, hl2n⟩
      · exact tasksOK j pc hj2
  | inMutexMiss k hk hl1 hc =>
    have hl2n : s.l2 = none := by
      cases hl2c : s.l2 with
      | none => rfl
      | some d =>
        obtain ⟨-, hsome⟩ := l2Val d hl2c
        rw [hsome] at hl1
        simp at hl1
    have hca : s.conn = .absent := by
      by_contra hne
      rcases connOrigin hne with hsome | ⟨j, pc, hj, hshape⟩
      · rw [hsome] at hl1
        simp at hl1
      · have hjk : j ≠ k := by
          intro heq
          subst heq
          rw [hk] at hj
          obtain rfl := (Option.some.inj hj).symm
          rcases hshape with h | ⟨i, h⟩ | ⟨i, h⟩ <;> simp at h
        have hpch : pc.holdsLock = true := by
          rcases hshape with rfl | ⟨i, rfl⟩ | ⟨i, rfl⟩ <;> rfl
        exact lockExcl k j .inMutex pc (fun heq => hjk heq.symm) hk hj rfl hpch
    refine ⟨?_, l1Val, l2Val, opensConn, ?_, ?_, ?_⟩
    · exact lockExcl_set s.tasks k .getConnCold lockExcl
        (fun _ => noOtherHolder s.tasks k .inMutex hk rfl lockExcl)
    · rw [countP_set_eq Pc.isPend s.tasks k .inMutex .getConnCold hk]
      simpa [Pc.isPend] using creatPend
    · intro hconn
      rcases connOrigin hconn with hl | hwit
      · exact Or.inl hl
      · exact Or.inr (connOrigin_set_preserve s.tasks k .inMutex .getConnCold hk
          (fun hsh => by rcases hsh with h | ⟨i, h⟩ | ⟨i, h⟩ <;> simp at h) hwit)
    · intro j pc hj
      rcases getElem?_set_cases s.tasks k j .getConnCold pc hj with ⟨rfl, rfl⟩ | ⟨hjk, hj2⟩
      · exact ⟨hca, hl1, hl2n⟩
      · exact tasksOK j pc hj2
  | l2Read2Hit k d hk hl2 =>
    obtain ⟨-, -, hl2n⟩ := tasksOK k .l2Read2 hk
    rw [hl2n] at hl2
    simp at hl2
  | l2Read2Miss k hk =>
    obtain ⟨hc2, hl1n, hl2n⟩ := tasksOK k .l2Read2 hk
    have hca : s.conn = .absent := by
      by_contra hne
      rcases connOrigin hne with hsome | ⟨j, pc, hj, hshape⟩
      · rw [hsome] at hl1n
        simp at hl1n
      · have hjk : j ≠ k := by
          intro heq
          subst heq
          rw [hk] at hj
          obtain rfl := (Option.some.inj hj).symm
          rcases hshape with h | ⟨i, h⟩ | ⟨i, h⟩ <;> simp at h
        have hpch : pc.holdsLock = true := by
          rcases hshape with rfl | ⟨i, rfl⟩ | ⟨i, rfl⟩ <;> rfl
        exact lockExcl k j .l2Read2 pc (fun heq => hjk heq.symm) hk hj rfl hpch
    refine ⟨?_, l1Val, l2Val, opensConn, ?_, ?_, ?_⟩
    · exact lockExcl_set s.tasks k .getConnCold lockExcl
        (fun _ => noOtherHolder s.tasks k .l2Read2 hk rfl lockExcl)
    · rw [countP_set_eq Pc.isPend s.tasks k .l2Read2 .getConnCold hk]
      simpa [Pc.isPend] using creatPend
    · intro hconn
      rcases connOrigin hconn with hl | hwit
      · exact Or.inl hl
      · exact Or.inr (connOrigin_set_preserve s.tasks k .l2Read2 .getConnCold hk
          (fun hsh => by rcases hsh with h | ⟨i, h⟩ | ⟨i, h⟩ <;> simp at h) hwit)
    · intro j pc hj
      rcases getElem?_set_cases s.tasks k j .getConnCold pc hj with ⟨rfl, rfl⟩ | ⟨hjk, hj2⟩
      · exact ⟨hca, hl1n, hl2n⟩
      · exact tasksOK j pc hj2
  | coldOpen k hk hconn =>
    obtain ⟨hca, hl1n, hl2n⟩ := tasksOK k .getConnCold hk
    have klen : k < s.tasks.length := (List.getElem?_eq_some.mp hk).1
    refine ⟨?_, ?_, ?_, ?_, ?_, ?_, ?_⟩
    · exact lockExcl_set s.tasks k .openWait lockExcl
        (fun _ => noOtherHolder s.tasks k .getConnCold hk rfl lockExcl)
    · intro d hd
      rw [hl1n] at hd
      simp at hd
    · intro d hd
      rw [hl2n] at hd
      simp at hd
    · simp [opensConn, hconn]
    · rw [countP_set_eq Pc.isPend s.tasks k .getConnCold .openWait hk]
      simpa [Pc.isPend] using creatPend
    · intro hne
      exact Or.inr ⟨k, .openWait, by rw [List.getElem?_set_self klen], Or.inl rfl⟩
    · intro j pc hj
      rcases getElem?_set_cases s.tasks k j .openWait pc hj with ⟨rfl, rfl⟩ | ⟨hjk, hj2⟩
      · exact ⟨hl1n, hl2n, Or.inl rfl⟩
      · have hold := tasksOK j pc hj2
        cases pc with
        | start => trivial
        | waitMutex => trivial
        | inMutex => trivial
        | l2Read1 => exact hold
        | l2Read2 => exact hold
        | reconNoLock d =>
          rw [hl1n] at hold
          simp [TaskOK] at hold
        | reconLock d =>
          rw [hl1n] at hold
          simp [TaskOK] at hold
        | getConnCold =>
          have hf := noOtherHolder s.tasks k .getConnCold hk rfl lockExcl j _ hjk hj2
          simp [Pc.holdsLock] at hf
        | openWait =>
          have hf := noOtherHolder s.tasks k .getConnCold hk rfl lockExcl j _ hjk hj2
          simp [Pc.holdsLock] at hf
        | bind i =>
          have hf := noOtherHolder s.tasks k .getConnCold hk rfl lockExcl j _ hjk hj2
          simp [Pc.holdsLock] at hf
        | indexWait i =>
          have hf := noOtherHolder s.tasks k .getConnCold hk rfl lockExcl j _ hjk hj2
          simp [Pc.holdsLock] at hf
        | l2SetPending =>
          rw [hl1n] at hold
          simp [TaskOK] at hold
        | finishCold =>
          rw [hl1n] at hold
          simp [TaskOK] at hold
        | done r =>
          rw [hl1n] at hold
          simp [TaskOK] at hold
  | ioConnect hconn =>
    refine ⟨lockExcl, ?_, l2Val, ?_, creatPend, ?_, ?_⟩
    · intro d hd
      obtain ⟨hds, hcs⟩ := l1Val d hd
      rw [hconn] at hcs
      simp at hcs
    · simp [opensConn, hconn]
    · intro hne
      rcases connOrigin (by rw [hconn]; simp) with hl | hwit
      · exact Or.inl hl
      · exact Or.inr hwit
    · intro j pc hj
      have hold := tasksOK j pc hj
      cases pc with
      | start => trivial
      | waitMutex => trivial
      | inMutex => trivial
      | l2Read1 => exact hold
      | l2Read2 => exact hold
      | reconNoLock d => exact hold
      | reconLock d => exact hold
      | getConnCold =>
        obtain ⟨hca, -, -⟩ := hold
        rw [hconn] at hca
        simp at hca
      | openWait =>
        obtain ⟨h1, h2, h3⟩ := hold
        exact ⟨h1, h2, Or.inr rfl⟩
      | bind i =>
        obtain ⟨-, hcb, -, -⟩ := hold
        rw [hconn] at hcb
        simp at hcb
      | indexWait i =>
        obtain ⟨-, hcb, -, -⟩ := hold
        rw [hconn] at hcb
        simp at hcb
      | l2SetPending => exact hold
      | finishCold => exact hold
      | done r => exact hold
  | openResume k ms hk hconn =>
    obtain ⟨hl1n, hl2n, hca⟩ := tasksOK k .openWait hk
    have hms : s.conn = .connected [] := by
      rcases hca with h | h
      · rw [hconn] at h
        simp at h
      · exact h
    refine ⟨?_, l1Val, l2Val, opensConn, ?_, ?_, ?_⟩
    · exact lockExcl_set s.tasks k (.bind 0) lockExcl
        (fun _ => noOtherHolder s.tasks k .openWait hk rfl lockExcl)
    · rw [countP_set_eq Pc.isPend s.tasks k .openWait (.bind 0) hk]
      simpa [Pc.isPend] using creatPend
    · intro hne
      rcases connOrigin hne with hl | hwit
      · exact Or.inl hl
      · exact Or.inr (connOrigin_set_preserve s.tasks k .openWait (.bind 0) hk
          (fun _ => Or.inr (Or.inl ⟨0, rfl⟩)) hwit)
    · intro j pc hj
      rcases getElem?_set_cases s.tasks k j (.bind 0) pc hj with ⟨rfl, rfl⟩ | ⟨hjk, hj2⟩
      · exact ⟨Nat.zero_le _, by rw [hms]; simp, hl1n, hl2n⟩
      · exact tasksOK j pc hj2
  | bindReuse k i ms name hk hconn hi hmem =>
    obtain ⟨-, hconn2, -, -⟩ := tasksOK k (.bind i) hk
    rw [hconn] at hconn2
    have hms : ms = schemas.take i := ConnSt.connected.inj hconn2
    rw [hms] at hmem
    exact absurd hmem (nodup_notMem_take schemas hnd i name hi)
  | bindCreate k i ms name hk hconn hi hmem =>
    obtain ⟨hile, hconn2, hl1n, hl2n⟩ := tasksOK k (.bind i) hk
    rw [hconn] at hconn2
    have hms : ms = schemas.take i := ConnSt.connected.inj hconn2
    have hilt : i < schemas.length := (List.getElem?_eq_some.mp hi).1
    have htake : ConnSt.connected (ms ++ [name]) = .connected (schemas.take (i+1)) := by
      rw [hms, List.take_succ, hi]
      simp
    refine ⟨?_, ?_, ?_, ?_, ?_, ?_, ?_⟩
    · exact lockExcl_set s.tasks k (.indexWait i) lockExcl
        (fun _ => noOtherHolder s.tasks k (.bind i) hk rfl lockExcl)
    · intro d hd
      rw [hl1n] at hd
      simp at hd
    · intro d hd
      rw [hl2n] at hd
      simp at hd
    · simp [opensConn, hconn]
    · rw [countP_set_eq Pc.isPend s.tasks k (.bind i) (.indexWait i) hk]
      simpa [Pc.isPend] using creatPend
    · intro hne
      rcases connOrigin (by rw [hconn]; simp) with hsome | hwit
      · rw [hl1n] at hsome
        simp at hsome
      · exact Or.inr (connOrigin_set_preserve s.tasks k (.bind i) (.indexWait i) hk
          (fun _ => Or.inr (Or.inr ⟨i, rfl⟩)) hwit)
    · intro j pc hj
      rcases getElem?_set_cases s.tasks k j (.indexWait i) pc hj with ⟨rfl, rfl⟩ | ⟨hjk, hj2⟩
      · exact ⟨hilt, htake, hl1n, hl2n⟩
      · have hold := tasksOK j pc hj2
        cases pc with
        | start => trivial
        | waitMutex => trivial
        | inMutex => trivial
        | l2Read1 => exact hold
        | l2Read2 => exact hold
        | reconNoLock d =>
          rw [hl1n] at hold
          simp [TaskOK] at hold
        | reconLock d =>
          rw [hl1n] at hold
          simp [TaskOK] at hold
        | getConnCold =>
          obtain ⟨hca, -, -⟩ := hold
          rw [hconn] at hca
          simp at hca
        | openWait =>
          have hf := noOtherHolder s.tasks k (.bind i) hk rfl lockExcl j _ hjk hj2
          simp [Pc.holdsLock] at hf
        | bind i2 =>
          have hf := noOtherHolder s.tasks k (.bind i) hk rfl lockExcl j _ hjk hj2
          simp [Pc.holdsLock] at hf
        | indexWait i2 =>
          have hf := noOtherHolder s.tasks k (.bind i) hk rfl lockExcl j _ hjk hj2
          simp [Pc.holdsLock] at hf
        | l2SetPending =>
          rw [hl1n] at hold
          simp [TaskOK] at hold
        | finishCold =>
          rw [hl1n] at hold
          simp [TaskOK] at hold
        | done r =>
          rw [hl1n] at hold
          simp [TaskOK] at hold
  | indexResume k i hk =>
    obtain ⟨hilt, hconn2, hl1n, hl2n⟩ := tasksOK k (.indexWait i) hk
    refine ⟨?_, l1Val, l2Val, opensConn, ?_, ?_, ?_⟩
    · exact lockExcl_set s.tasks k (.bind (i+1)) lockExcl
        (fun _ => noOtherHolder s.tasks k (.indexWait i) hk rfl lockExcl)
    · rw [countP_set_eq Pc.isPend s.tasks k (.indexWait i) (.bind (i+1)) hk]
      simpa [Pc.isPend] using creatPend
    · intro hne
      rcases connOrigin hne with hl | hwit
      · exact Or.inl hl
      · exact Or.inr (connOrigin_set_preserve s.tasks k (.indexWait i) (.bind (i+1)) hk
          (fun _ => Or.inr (Or.inl ⟨i+1, rfl⟩)) hwit)
    · intro j pc hj
      rcases getElem?_set_cases s.tasks k j (.bind (i+1)) pc hj with ⟨rfl, rfl⟩ | ⟨hjk, hj2⟩
      · exact ⟨hilt, hconn2, hl1n, hl2n⟩
      · exact tasksOK j pc hj2
  | bindFinishL2 k hk hc =>
    obtain ⟨-, hconn2, hl1n, hl2n⟩ := tasksOK k (.bind schemas.length) hk
    rw [List.take_length] at hconn2
    refine ⟨?_, ?_, ?_, opensConn, ?_, ?_, ?_⟩
    · exact lockExcl_set s.tasks k .l2SetPending lockExcl
        (fun _ => noOtherHolder s.tasks k (.bind schemas.length) hk rfl lockExcl)
    · intro d hd
      obtain rfl := Option.some.inj hd
      exact ⟨rfl, hconn2⟩
    · intro d hd
      rw [hl2n] at hd
      simp at hd
    · rw [countP_set_eq Pc.isPend s.tasks k (.bind schemas.length) .l2SetPending hk]
      have h0 := creatPend
      rw [hl1n] at h0
      simp only [Option.isSome_none, Bool.false_eq_true, if_false] at h0
      simp [Pc.isPend]
      omega
    · intro hne
      exact Or.inl rfl
    · intro j pc hj
      rcases getElem?_set_cases s.tasks k j .l2SetPending pc hj with ⟨rfl, rfl⟩ | ⟨hjk, hj2⟩
      · exact ⟨hc, rfl⟩
      · have hold := tasksOK j pc hj2
        cases pc with
        | start => trivial
        | waitMutex => trivial
        | inMutex => trivial
        | l2Read1 => exact hold
        | l2Read2 =>
          have hf := noOtherHolder s.tasks k (.bind schemas.length) hk rfl lockExcl j _ hjk hj2
          simp [Pc.holdsLock] at hf
        | reconNoLock d =>
          obtain ⟨-, hsome⟩ := hold
          rw [hl1n] at hsome
          simp at hsome
        | reconLock d =>
          obtain ⟨-, hsome⟩ := hold
          rw [hl1n] at hsome
          simp at hsome
        | getConnCold =>
          have hf := noOtherHolder s.tasks k (.bind schemas.length) hk rfl lockExcl j _ hjk hj2
          simp [Pc.holdsLock] at hf
        | openWait =>
          have hf := noOtherHolder s.tasks k (.bind schemas.length) hk rfl lockExcl j _ hjk hj2
          simp [Pc.holdsLock] at hf
        | bind i2 =>
          have hf := noOtherHolder s.tasks k (.bind schemas.length) hk rfl lockExcl j _ hjk hj2
          simp [Pc.holdsLock] at hf
        | indexWait i2 =>
          have hf := noOtherHolder s.tasks k (.bind schemas.length) hk rfl lockExcl j _ hjk hj2
          simp [Pc.holdsLock] at hf
        | l2SetPending =>
          obtain ⟨-, hsome⟩ := hold
          rw [hl1n] at hsome
          simp at hsome
        | finishCold =>
          rw [hl1n] at hold
          simp [TaskOK] at hold
        | done r =>
          obtain ⟨-, hsome⟩ := hold
          rw [hl1n] at hsome
          simp at hsome
  | bindFinishNoL2 k hk hc =>
    obtain ⟨-, hconn2, hl1n, hl2n⟩ := tasksOK k (.bind schemas.length) hk
    rw [List.take_length] at hconn2
    refine ⟨?_, ?_, ?_, opensConn, ?_, ?_, ?_⟩
    · exact lockExcl_set s.tasks k .finishCold lockExcl
        (fun _ => noOtherHolder s.tasks k (.bind schemas.length) hk rfl lockExcl)
    · intro d hd
      obtain rfl := Option.some.inj hd
      exact ⟨rfl, hconn2⟩
    · intro d hd
      rw [hl2n] at hd
      simp at hd
    · rw [countP_set_eq Pc.isPend s.tasks k (.bind schemas.length) .finishCold hk]
      have h0 := creatPend
      rw [hl1n] at h0
      simp only [Option.isSome_none, Bool.false_eq_true, if_false] at h0
      simp [Pc.isPend]
      omega
    · intro hne
      exact Or.inl rfl
    · intro j pc hj
      rcases getElem?_set_cases s.tasks k j .finishCold pc hj with ⟨rfl, rfl⟩ | ⟨hjk, hj2⟩
      · rfl
      · have hold := tasksOK j pc hj2
        cases pc with
        | start => trivial
        | waitMutex => trivial
        | inMutex => trivial
        | l2Read1 => exact hold
        | l2Read2 =>
          have hf := noOtherHolder s.tasks k (.bind schemas.length) hk rfl lockExcl j _ hjk hj2
          simp [Pc.holdsLock] at hf
        | reconNoLock d =>
          obtain ⟨-, hsome⟩ := hold
          rw [hl1n] at hsome
          simp at hsome
        | reconLock d =>
          obtain ⟨-, hsome⟩ := hold
          rw [hl1n] at hsome
          simp at hsome
        | getConnCold =>
          have hf := noOtherHolder s.tasks k (.bind schemas.length) hk rfl lockExcl j _ hjk hj2
          simp [Pc.holdsLock] at hf
        | openWait =>
          have hf := noOtherHolder s.tasks k (.bind schemas.length) hk rfl lockExcl j _ hjk hj2
          simp [Pc.holdsLock] at hf
        | bind i2 =>
          have hf := noOtherHolder s.tasks k (.bind schemas.length) hk rfl lockExcl j _ hjk hj2
          simp [Pc.holdsLock] at hf
        | indexWait i2 =>
          have hf := noOtherHolder s.tasks k (.bind schemas.length) hk rfl lockExcl j _ hjk hj2
          simp [Pc.holdsLock] at hf
        | l2SetPending =>
          obtain ⟨-, hsome⟩ := hold
          rw [hl1n] at hsome
          simp at hsome
        | finishCold =>
          rw [hl1n] at hold
          simp [TaskOK] at hold
        | done r =>
          obtain ⟨-, hsome⟩ := hold
          rw [hl1n] at hsome
          simp at hsome
  | l2SetLand k hk =>
    obtain ⟨hc2, hl1s⟩ := tasksOK k .l2SetPending hk
    refine ⟨?_, l1Val, ?_, opensConn, ?_, ?_, ?_⟩
    · exact lockExcl_set s.tasks k .finishCold lockExcl
        (fun _ => noOtherHolder s.tasks k .l2SetPending hk rfl lockExcl)
    · intro d hd
      obtain rfl := Option.some.inj hd
      exact ⟨rfl, hl1s⟩
    · rw [countP_set_eq Pc.isPend s.tasks k .l2SetPending .finishCold hk]
      have hge := countP_ge_one Pc.isPend s.tasks k .l2SetPending hk rfl
      have h0 := creatPend
      rw [hl1s] at h0 ⊢
      simp [Pc.isPend] at h0 ⊢
      omega
    · intro hne
      exact Or.inl hl1s
    · intro j pc hj
      rcases getElem?_set_cases s.tasks k j .finishCold pc hj with ⟨rfl, rfl⟩ | ⟨hjk, hj2⟩
      · exact hl1s
      · have hold := tasksOK j pc hj2
        cases pc with
        | start => trivial
        | waitMutex => trivial
        | inMutex => trivial
        | l2Read1 => exact hold
        | l2Read2 =>
          have hf := noOtherHolder s.tasks k .l2SetPending hk rfl lockExcl j _ hjk hj2
          simp [Pc.holdsLock] at hf
        | reconNoLock d => exact hold
        | reconLock d => exact hold
        | getConnCold =>
          have hf := noOtherHolder s.tasks k .l2SetPending hk rfl lockExcl j _ hjk hj2
          simp [Pc.holdsLock] at hf
        | openWait =>
          have hf := noOtherHolder s.tasks k .l2SetPending hk rfl lockExcl j _ hjk hj2
          simp [Pc.holdsLock] at hf
        | bind i2 =>
          have hf := noOtherHolder s.tasks k .l2SetPending hk rfl lockExcl j _ hjk hj2
          simp [Pc.holdsLock] at hf
        | indexWait i2 =>
          have hf := noOtherHolder s.tasks k .l2SetPending hk rfl lockExcl j _ hjk hj2
          simp [Pc.holdsLock] at hf
        | l2SetPending => exact hold
        | finishCold => exact hold
        | done r => exact hold
  | coldRet k hk =>
    have hl1s := tasksOK k .finishCold hk
    refine ⟨?_, l1Val, l2Val, opensConn, ?_, ?_, ?_⟩
    · exact lockExcl_set s.tasks k (.done schemas) lockExcl
        (fun hxh => by simp [Pc.holdsLock] at hxh)
    · rw [countP_set_eq Pc.isPend s.tasks k .finishCold (.done schemas) hk]
      have hge := countP_ge_one Pc.isPend s.tasks k .finishCold hk rfl
      have h0 := creatPend
      rw [hl1s] at h0 ⊢
      simp [Pc.isPend] at h0 ⊢
      omega
    · intro hne
      exact Or.inl hl1s
    · intro j pc hj
      rcases getElem?_set_cases s.tasks k j (.done schemas) pc hj with ⟨rfl, rfl⟩ | ⟨hjk, hj2⟩
      · exact ⟨rfl, hl1s⟩
      · exact tasksOK j pc hj2
  | reconN k d ms hk hconn =>
    obtain ⟨hds, hl1s⟩ := tasksOK k (.reconNoLock d) hk
    have hcs := (l1Val schemas hl1s).2
    have hms : ms = schemas := by
      rw [hconn] at hcs
      exact ConnSt.connected.inj hcs
    have hcc : ConnSt.connected (reconConn schemas d ms) = s.conn := by
      rw [hds, hms, reconConn_self, hcs]
    have hrr : reconResult schemas d = schemas := by
      rw [hds, reconResult_self]
    refine ⟨?_, ?_, l2Val, ?_, ?_, ?_, ?_⟩
    · exact lockExcl_set s.tasks k (.done (reconResult schemas d)) lockExcl
        (fun hxh => by simp [Pc.holdsLock] at hxh)
    · intro d' hd'
      obtain ⟨hd's, -⟩ := l1Val d' hd'
      refine ⟨hd's, ?_⟩
      rw [hcc]
      exact hcs
    · simp [opensConn, hcs]
    · rw [countP_set_eq Pc.isPend s.tasks k (.reconNoLock d) (.done (reconResult schemas d)) hk]
      simpa [Pc.isPend] using creatPend
    · intro hne
      exact Or.inl hl1s
    · intro j pc hj
      rcases getElem?_set_cases s.tasks k j (.done (reconResult schemas d)) pc hj with
        ⟨rfl, rfl⟩ | ⟨hjk, hj2⟩
      · exact ⟨hrr, hl1s⟩
      · rw [hcc]
        exact tasksOK j pc hj2
  | reconL k d ms hk hconn =>
    obtain ⟨hds, hl1s⟩ := tasksOK k (.reconLock d) hk
    have hcs := (l1Val schemas hl1s).2
    have hms : ms = schemas := by
      rw [hconn] at hcs
      exact ConnSt.connected.inj hcs
    have hcc : ConnSt.connected (reconConn schemas d ms) = s.conn := by
      rw [hds, hms, reconConn_self, hcs]
    have hrr : reconResult schemas d = schemas := by
      rw [hds, reconResult_self]
    refine ⟨?_, ?_, l2Val, ?_, ?_, ?_, ?_⟩
    · exact lockExcl_set s.tasks k (.done (reconResult schemas d)) lockExcl
        (fun hxh => by simp [Pc.holdsLock] at hxh)
    · intro d' hd'
      obtain ⟨hd's, -⟩ := l1Val d' hd'
      refine ⟨hd's, ?_⟩
      rw [hcc]
      exact hcs
    · simp [opensConn, hcs]
    · rw [countP_set_eq Pc.isPend s.tasks k (.reconLock d) (.done (reconResult schemas d)) hk]
      simpa [Pc.isPend] using creatPend
    · intro hne
      exact Or.inl hl1s
    · intro j pc hj
      rcases getElem?_set_cases s.tasks k j (.done (reconResult schemas d)) pc hj with
        ⟨rfl, rfl⟩ | ⟨hjk, hj2⟩
      · exact ⟨hrr, hl1s⟩
      · rw [hcc]
        exact tasksOK j pc hj2

theorem inv_init (schemas : List String) (c : Bool) (n : Nat) :
    Inv schemas c (initCfg n) := by
  refine ⟨?_, ?_, ?_, ?_, ?_, ?_, ?_⟩
  · intro i j pci pcj hij hi hj hpi hpj
    simp only [initCfg] at hi
    rw [List.getElem?_replicate] at hi
    by_cases h : i < n
    · rw [if_pos h] at hi
      obtain rfl := (Option.some.inj hi).symm
      simp [Pc.holdsLock] at hpi
    · rw [if_neg h] at hi
      cases hi
  · intro d hd
    simp [initCfg] at hd
  · intro d hd
    simp [initCfg] at hd
  · rfl
  · have hz : (List.replicate n Pc.start).countP Pc.isPend = 0 :=
      List.countP_eq_zero.mpr
        (fun a ha => by rw [(List.mem_replicate.mp ha).2]; simp [Pc.isPend])
    simp [initCfg, hz]
  · intro hc
    simp [initCfg] at hc
  · intro k pc hk
    simp only [initCfg] at hk
    rw [List.getElem?_replicate] at hk
    by_cases h : k < n
    · rw [if_pos h] at hk
      obtain rfl := (Option.some.inj hk).symm
      trivial
    · rw [if_neg h] at hk
      cases hk

theorem step_tasks_length (schemas : List String) (c : Bool) (s s' : Cfg)
    (h : Step schemas c s s') : s'.tasks.length = s.tasks.length := by
  cases h <;> simp [List.length_set]

theorem reach_inv (schemas : List String) (c : Bool) (hnd : schemas.Nodup)
    (s s' : Cfg) (hreach : Reach schemas c s s') (hinv : Inv schemas c s) :
    Inv schemas c s' := by
  induction hreach with
  | refl => exact hinv
  | tail hr hstep ih => exact inv_step schemas c hnd _ _ hstep ih

theorem reach_tasks_length (schemas : List String) (c : Bool) (s s' : Cfg)
    (hreach : Reach schemas c s s') : s'.tasks.length = s.tasks.length := by
  induction hreach with
  | refl => rfl
  | tail hr hstep ih => rw [step_tasks_length _ _ _ _ hstep, ih]

/-- C1: for N ≥ 2 callers concurrently invoking `getModels(T)` on an
uncached tenant, under every interleaving that completes all callers,
exactly one cold materialization is performed (`modelCreations` = 1 and
exactly one connection open) and all N callers receive structurally equal
model mappings (every caller returns the full registered-schema mapping):
the per-tenant mutex plus the double-check of the cache inside the
critical section collapse the concurrent requests into one unit of
work. -/
theorem c1_single_flight (schemas : List String) (c : Bool) (n : Nat)
    (hnd : schemas.Nodup) (hn : 2 ≤ n) (cfg : Cfg)
    (hreach : Reach schemas c (initCfg n) cfg)
    (hdone : ∀ pc ∈ cfg.tasks, pc.isDone = true) :
    cfg.creations = 1 ∧ cfg.opens = 1 ∧ ∀ pc ∈ cfg.tasks, pc = .done schemas := by
  have hinv := reach_inv schemas c hnd _ _ hreach (inv_init schemas c n)
  have hlen : cfg.tasks.length = n := by
    have h1 := reach_tasks_length schemas c _ _ hreach
    simpa [initCfg] using h1
  have hpos : 0 < cfg.tasks.length := by omega
  have hpc0 : cfg.tasks[0]? = some cfg.tasks[0] := List.getElem?_eq_getElem hpos
  have hd0 := hdone cfg.tasks[0] (List.mem_iff_getElem?.mpr ⟨0, hpc0⟩)
  have hok0 := hinv.tasksOK 0 cfg.tasks[0] hpc0
  have hl1s : cfg.l1 = some schemas := by
    cases hg : cfg.tasks[0] with
    | done r =>
      rw [hg] at hok0
      exact hok0.2
    | start => rw [hg] at hd0; simp [Pc.isDone] at hd0
    | l2Read1 => rw [hg] at hd0; simp [Pc.isDone] at hd0
    | waitMutex => rw [hg] at hd0; simp [Pc.isDone] at hd0
    | inMutex => rw [hg] at hd0; simp [Pc.isDone] at hd0
    | l2Read2 => rw [hg] at hd0; simp [Pc.isDone] at hd0
    | reconNoLock d => rw [hg] at hd0; simp [Pc.isDone] at hd0
    | reconLock d => rw [hg] at hd0; simp [Pc.isDone] at hd0
    | getConnCold => rw [hg] at hd0; simp [Pc.isDone] at hd0
    | openWait => rw [hg] at hd0; simp [Pc.isDone] at hd0
    | bind i => rw [hg] at hd0; simp [Pc.isDone] at hd0
    | indexWait i => rw [hg] at hd0; simp [Pc.isDone] at hd0
    | l2SetPending => rw [hg] at hd0; simp [Pc.isDone] at hd0
    | finishCold => rw [hg] at hd0; simp [Pc.isDone] at hd0
  have hcount : cfg.tasks.countP Pc.isPend = 0 := by
    rw [List.countP_eq_zero]
    intro a ha
    have hda := hdone a ha
    cases a <;> first | (simp [Pc.isPend]; done) | simp [Pc.isDone] at hda
  have hcp := hinv.creatPend
  rw [hcount, hl1s] at hcp
  simp at hcp
  refine ⟨hcp, ?_, ?_⟩
  · have ho := hinv.opensConn
    rw [(hinv.l1Val schemas hl1s).2] at ho
    simpa using ho
  · intro pc hmem
    obtain ⟨j, hj⟩ := List.mem_iff_getElem?.mp hmem
    have hok := hinv.tasksOK j pc hj
    have hd := hdone pc hmem
    cases pc with
    | done r => exact congrArg Pc.done hok.1
    | start => simp [Pc.isDone] at hd
    | l2Read1 => simp [Pc.isDone] at hd
    | waitMutex => simp [Pc.isDone] at hd
    | inMutex => simp [Pc.isDone] at hd
    | l2Read2 => simp [Pc.isDone] at hd
    | reconNoLock d => simp [Pc.isDone] at hd
    | reconLock d => simp [Pc.isDone] at hd
    | getConnCold => simp [Pc.isDone] at hd
    | openWait => simp [Pc.isDone] at hd
    | bind i => simp [Pc.isDone] at hd
    | indexWait i => simp [Pc.isDone] at hd
    | l2SetPending => simp [Pc.isDone] at hd
    | finishCold => simp [Pc.isDone] at hd

theorem c1_single_flight_witness :
    ((["User", "Project"] : List String).Nodup ∧ 2 ≤ 2 ∧
      Reach ["User", "Project"] false (initCfg 2)
        (Cfg.mk (some ["User", "Project"]) none (.connected ["User", "Project"]) 1 1
          [.done ["User", "Project"], .done ["User", "Project"]]) ∧
      (∀ pc ∈ (Cfg.mk (some ["User", "Project"]) none
          (.connected ["User", "Project"]) 1 1
          [.done ["User", "Project"], .done ["User", "Project"]]).tasks,
        pc.isDone = true)) ∧
    ((Cfg.mk (some ["User", "Project"]) none (.connected ["User", "Project"]) 1 1
        [.done ["User", "Project"], .done ["User", "Project"]]).creations = 1 ∧
      (Cfg.mk (some ["User", "Project"]) none (.connected ["User", "Project"]) 1 1
        [.done ["User", "Project"], .done ["User", "Project"]]).opens = 1 ∧
      ∀ pc ∈ (Cfg.mk (some ["User", "Project"]) none
          (.connected ["User", "Project"]) 1 1
          [.done ["User", "Project"], .done ["User", "Project"]]).tasks,
        pc = .done ["User", "Project"]) := by
  have hreach : Reach ["User", "Project"] false (initCfg 2)
      (Cfg.mk (some ["User", "Project"]) none (.connected ["User", "Project"]) 1 1
        [.done ["User", "Project"], .done ["User", "Project"]]) := by
    refine Relation.ReflTransGen.head (Step.startMiss _ 0 (by decide) rfl rfl) ?_
    refine Relation.ReflTransGen.head (Step.startMiss _ 1 (by decide) rfl rfl) ?_
    refine Relation.ReflTransGen.head (Step.acquire _ 0 (by decide) (by decide)) ?_
    refine Relation.ReflTransGen.head (Step.inMutexMiss _ 0 (by decide) rfl rfl) ?_
    refine Relation.ReflTransGen.head (Step.coldOpen _ 0 (by decide) rfl) ?_
    refine Relation.ReflTransGen.head (Step.ioConnect _ rfl) ?_
    refine Relation.ReflTransGen.head (Step.openResume _ 0 [] (by decide) rfl) ?_
    refine Relation.ReflTransGen.head
      (Step.bindCreate _ 0 0 [] "User" (by decide) rfl (by decide) (by decide)) ?_
    refine Relation.ReflTransGen.head (Step.indexResume _ 0 0 (by decide)) ?_
    refine Relation.ReflTransGen.head
      (Step.bindCreate _ 0 1 ["User"] "Project" (by decide) rfl (by decide) (by decide)) ?_
    refine Relation.ReflTransGen.head (Step.indexResume _ 0 1 (by decide)) ?_
    refine Relation.ReflTransGen.head (Step.bindFinishNoL2 _ 0 (by decide) rfl) ?_
    refine Relation.ReflTransGen.head (Step.coldRet _ 0 (by decide)) ?_
    refine Relation.ReflTransGen.head (Step.acquire _ 1 (by decide) (by decide)) ?_
    refine Relation.ReflTransGen.head (Step.inMutexHit _ 1 ["User", "Project"] (by decide) rfl) ?_
    refine Relation.ReflTransGen.head
      (Step.reconL _ 1 ["User", "Project"] ["User", "Project"] (by decide) rfl) ?_
    exact Relation.ReflTransGen.refl
  exact ⟨⟨by decide, by decide, hreach, by decide⟩,
    c1_single_flight ["User", "Project"] false 2 (by decide) (by decide) _ hreach (by decide)⟩

end ChemTech
